import Mathlib

/-!
Verification development for the amplifier-bundle-errorcache repository.

The repository contains two Python modules:
- modules/hooks-errorcache  (hook: error extraction, dedup-key normalization,
  passive watcher, minimal HTTP client),
- modules/tool-errorcache   (tool: two-phase search, submit, verify).

This file gives a shallow embedding of the relevant functions.  HTTP transport
is modelled by oracle parameters: responses of the remote service are explicit
inputs, and a transport or parse failure is an explicit error value (Python
swallows the exception at each call site; the embedding mirrors each handler).
Embedding conventions, noted again at the definitions they concern:
- machine strings are Lean String or List Char; Python regular-expression
  character class \w (unicode word character) is modelled as an ASCII
  alphanumeric character or an underscore;
- Python str.splitlines is modelled over the line boundaries \r\n, \n, \r
  (the exotic boundaries \v, \f, \x1c..\x1e, \x85, u2028, u2029 are omitted);
- Python str.strip / Char whitespace is modelled by Char.isWhitespace;
- json values are the inductive Json below; Python truthiness of a json value
  is jsonTruthy.
-/

namespace ErrorCache

/-! ### Json values (decoded bodies of the remote API) -/

inductive Json where
  | null : Json
  | bool (b : Bool) : Json
  | num (n : Int) : Json
  | str (s : String) : Json
  | arr (elems : List Json) : Json
  | obj (fields : List (String × Json)) : Json
  deriving Repr

mutual

def Json.beq : Json → Json → Bool
  | .null, .null => true
  | .bool a, .bool b => a = b
  | .num a, .num b => a = b
  | .str a, .str b => a = b
  | .arr a, .arr b => Json.beqList a b
  | .obj a, .obj b => Json.beqFields a b
  | _, _ => false

def Json.beqList : List Json → List Json → Bool
  | [], [] => true
  | x :: xs, y :: ys => Json.beq x y && Json.beqList xs ys
  | _, _ => false

def Json.beqFields : List (String × Json) → List (String × Json) → Bool
  | [], [] => true
  | (k1, v1) :: xs, (k2, v2) :: ys => k1 = k2 && Json.beq v1 v2 && Json.beqFields xs ys
  | _, _ => false

end

mutual

theorem Json.beq_iff : ∀ a b : Json, Json.beq a b = true ↔ a = b
  | .null, b => by cases b <;> simp [Json.beq]
  | .bool x, b => by cases b <;> simp [Json.beq]
  | .num x, b => by cases b <;> simp [Json.beq]
  | .str x, b => by cases b <;> simp [Json.beq]
  | .arr x, b => by
      cases b <;> simp [Json.beq]
      exact Json.beqList_iff x _
  | .obj x, b => by
      cases b <;> simp [Json.beq]
      exact Json.beqFields_iff x _

theorem Json.beqList_iff : ∀ a b : List Json, Json.beqList a b = true ↔ a = b
  | [], b => by cases b <;> simp [Json.beqList]
  | x :: xs, b => by
      cases b with
      | nil => simp [Json.beqList]
      | cons y ys =>
        simp [Json.beqList, Bool.and_eq_true, Json.beq_iff x y, Json.beqList_iff xs ys]

theorem Json.beqFields_iff :
    ∀ a b : List (String × Json), Json.beqFields a b = true ↔ a = b
  | [], b => by cases b <;> simp [Json.beqFields]
  | (k1, v1) :: xs, b => by
      cases b with
      | nil => simp [Json.beqFields]
      | cons y ys =>
        obtain ⟨k2, v2⟩ := y
        simp [Json.beqFields, Bool.and_eq_true, Json.beq_iff v1 v2,
          Json.beqFields_iff xs ys, and_assoc]

end

instance : DecidableEq Json := fun a b =>
  decidable_of_iff (Json.beq a b = true) (Json.beq_iff a b)

/-- Python dict.get(key) on a decoded json object: the value of the first
matching key, none when the json value is not an object or lacks the key. -/
def jget (j : Json) (key : String) : Option Json :=
  match j with
  | .obj fields => (fields.find? (fun kv => kv.1 = key)).map (·.2)
  | _ => none

/-- Python dict.get(key, default). -/
def jgetD (j : Json) (key : String) (d : Json) : Json := (jget j key).getD d

/-- Python truthiness of a decoded json value (bool(x)). -/
def jsonTruthy : Json → Bool
  | .null => false
  | .bool b => b
  | .num n => n ≠ 0
  | .str s => s ≠ ""
  | .arr l => l ≠ []
  | .obj l => l ≠ []

/-- Python truthiness of dict.get(key): None (missing key) is falsy. -/
def jsonTruthyOpt : Option Json → Bool
  | none => false
  | some j => jsonTruthy j

def Json.isObj : Json → Bool
  | .obj _ => true
  | _ => false

def Json.isArr : Json → Bool
  | .arr _ => true
  | _ => false

end ErrorCache

namespace ErrorCache

/-! ### Generic leftmost substitution scanner

Python re.sub(pattern, rep, text) scans left to right; at each position it
tries to match the pattern there (leftmost match wins), emits the replacement
and resumes after the match, otherwise emits the character and moves one
position right.  Each concrete pattern of the source is modelled by a
match-at-position function `List Char → Option Nat` returning the length of
the match the Python regex engine finds at that position (backtracking,
ordered alternation and greediness are reproduced in each matcher).  The
scanner is fuel-indexed (fuel bounds the number of steps; each step consumes
at least one character, so fuel = length of the input suffices), which keeps
it structurally recursive and kernel-computable. -/

def substFuel (m : List Char → Option Nat) (rep : List Char) :
    Nat → List Char → List Char
  | 0, _ => []
  | _, [] => []
  | fuel + 1, c :: rest =>
    match m (c :: rest) with
    | some n => rep ++ substFuel m rep fuel (rest.drop (n - 1))
    | none => c :: substFuel m rep fuel rest

/-- Python re.sub with match-at-position function m and replacement rep. -/
def subst (m : List Char → Option Nat) (rep : List Char) (l : List Char) : List Char :=
  substFuel m rep l.length l

/-- The scanner restricted to a prefix: scans pre (with rest as lookahead
context) and stops when pre is exhausted.  Used by the decomposition lemmas:
when no match inside pre runs past its end, the output of subst on pre ++ rest
is substOn on pre followed by subst on rest. -/
def substOnFuel (m : List Char → Option Nat) (rep : List Char) :
    Nat → List Char → List Char → List Char
  | 0, _, _ => []
  | _, [], _ => []
  | fuel + 1, c :: p, rest =>
    match m (c :: p ++ rest) with
    | some n => rep ++ substOnFuel m rep fuel (p.drop (n - 1)) rest
    | none => c :: substOnFuel m rep fuel p rest

def substOn (m : List Char → Option Nat) (rep : List Char) (pre rest : List Char) :
    List Char :=
  substOnFuel m rep pre.length pre rest

/-! ### The three normalization patterns of ErrorCacheHook._error_key

Source (hooks module, _error_key):
  cleaned = re.sub(r"/[\w./\\-]+\.(py|js|ts|rs|go|rb|java|c|cpp|h)", "<FILE>", text)
  cleaned = re.sub(r":\d+:\d+", ":<N>", cleaned)
  cleaned = re.sub(r"line \d+", "line <N>", cleaned, flags=re.IGNORECASE)
  return cleaned[:200].strip().lower()
-/

/-- Python regex \w, modelled over ASCII: alphanumeric or underscore. -/
def isWordChar (c : Char) : Bool := c.isAlphanum || c = '_'

/-- The character class [\w./\\-] of the file-path pattern. -/
def isPathChar (c : Char) : Bool :=
  isWordChar c || c = '.' || c = '/' || c = '\\' || c = '-'

/-- Length of the maximal prefix of path-class characters (greedy run of
[\w./\\-]+ before backtracking). -/
def classRun : List Char → Nat
  | [] => 0
  | c :: r => if isPathChar c then classRun r + 1 else 0

/-- The alternation (py|js|ts|rs|go|rb|java|c|cpp|h) in source order; Python
tries alternatives left to right, so c is found before cpp. -/
def srcExts : List (List Char) :=
  [['p','y'], ['j','s'], ['t','s'], ['r','s'], ['g','o'], ['r','b'],
   ['j','a','v','a'], ['c'], ['c','p','p'], ['h']]

/-- First alternative (in source order) that is a prefix here, with its
length. -/
def extMatch (l : List Char) : Option Nat :=
  (srcExts.find? (fun e => e.isPrefixOf l)).map List.length

/-- Match of the trailing \.(ext) part at this position. -/
def dotExt : List Char → Option Nat
  | '.' :: r => (extMatch r).map (· + 1)
  | _ => none

/-- Backtracking loop: try class-run lengths r, r-1, ..., 1 (greedy: longest
run first) until \.(ext) matches right after the run. -/
def pathBacktrack (cs : List Char) : Nat → Option Nat
  | 0 => none
  | r + 1 =>
    match dotExt (cs.drop (r + 1)) with
    | some k => some (r + 1 + k)
    | none => pathBacktrack cs r

/-- Match of r"/[\w./\\-]+\.(py|js|ts|rs|go|rb|java|c|cpp|h)" at a position:
literal slash, then the backtracking class run, then dot and extension. -/
def matchPathAt : List Char → Option Nat
  | '/' :: rest => (pathBacktrack rest (classRun rest)).map (· + 1)
  | _ => none

/-- Length of the maximal digit prefix (greedy \d+). -/
def digitRun : List Char → Nat
  | [] => 0
  | c :: r => if c.isDigit then digitRun r + 1 else 0

/-- Match of r":\d+:\d+" at a position.  The pattern is deterministic: each
greedy \d+ is followed by a non-digit requirement, so no backtracking arises. -/
def matchLineColAt : List Char → Option Nat
  | ':' :: rest =>
    let d1 := digitRun rest
    if d1 = 0 then none
    else
      match rest.drop d1 with
      | ':' :: rest2 =>
        let d2 := digitRun rest2
        if d2 = 0 then none else some (1 + d1 + 1 + d2)
      | _ => none
  | _ => none

/-- Match of r"line \d+" (re.IGNORECASE) at a position. -/
def matchLineAt : List Char → Option Nat
  | c1 :: c2 :: c3 :: c4 :: c5 :: rest =>
    if c1.toLower = 'l' && c2.toLower = 'i' && c3.toLower = 'n' &&
        c4.toLower = 'e' && c5 = ' ' then
      let d := digitRun rest
      if d = 0 then none else some (5 + d)
    else none
  | _ => none

def subPath (l : List Char) : List Char := subst matchPathAt "<FILE>".toList l

def subLineCol (l : List Char) : List Char := subst matchLineColAt ":<N>".toList l

def subLineNum (l : List Char) : List Char := subst matchLineAt "line <N>".toList l

/-- Python str.strip(): drop whitespace from both ends. -/
def pyStripChars (l : List Char) : List Char :=
  ((l.dropWhile Char.isWhitespace).reverse.dropWhile Char.isWhitespace).reverse

/-- ErrorCacheHook._error_key: the three substitutions, then [:200], strip,
lower. -/
def error_key (text : String) : String :=
  String.mk ((pyStripChars ((subLineNum (subLineCol (subPath text.toList))).take 200)).map
    Char.toLower)

end ErrorCache

namespace ErrorCache

/-! ### ERROR_PATTERNS and _extract_error_text (hooks module)

Each compiled pattern of ERROR_PATTERNS is modelled by a match-at-position
function (length of the match Python finds at that position); p.search is the
leftmost such match.  Case-insensitive literals are stored lowercase and
compared through Char.toLower. -/

/-- Case-insensitive prefix test; pat is given in lowercase. -/
def prefixCIBool : List Char → List Char → Bool
  | [], _ => true
  | _ :: _, [] => false
  | p :: ps, c :: cs => p = c.toLower && prefixCIBool ps cs

/-- Case-insensitive literal pattern at a position. -/
def litCI (pat : List Char) (l : List Char) : Option Nat :=
  if prefixCIBool pat l then some pat.length else none

/-- Case-sensitive literal pattern at a position. -/
def litCS (pat : List Char) (l : List Char) : Option Nat :=
  if pat.isPrefixOf l then some pat.length else none

/-- Ordered alternation of case-sensitive literals. -/
def altCS (pats : List (List Char)) (l : List Char) : Option Nat :=
  pats.findSome? (fun p => litCS p l)

/-- Ordered alternation of case-insensitive literals. -/
def altCI (pats : List (List Char)) (l : List Char) : Option Nat :=
  pats.findSome? (fun p => litCI p l)

/-- r"Traceback \(most recent call last\)", re.IGNORECASE. -/
def matchTracebackAt : List Char → Option Nat :=
  litCI "traceback (most recent call last)".toList

/-- Ordered alternation followed by a literal colon. -/
def altColon : List (List Char) → List Char → Option Nat
  | [], _ => none
  | a :: rest, l =>
    if prefixCIBool a l && (l.drop a.length).head? = some ':' then some (a.length + 1)
    else altColon rest l

/-- r"(?:Error|Exception|FAILED|FATAL):", re.IGNORECASE. -/
def matchErrWordAt : List Char → Option Nat :=
  altColon ["error".toList, "exception".toList, "failed".toList, "fatal".toList]

/-- r"error\[E\d+\]", re.IGNORECASE (Rust/pyright style). -/
def matchRustErrAt (l : List Char) : Option Nat :=
  if prefixCIBool "error[".toList l then
    match l.drop 6 with
    | e :: r =>
      if e.toLower = 'e' then
        let d := digitRun r
        if d = 0 then none
        else
          match r.drop d with
          | ']' :: _ => some (6 + 1 + d + 1)
          | _ => none
      else none
    | [] => none
  else none

/-- A character of the class [A-Z_]. -/
def isUpperUnd (c : Char) : Bool := ('A' ≤ c && c ≤ 'Z') || c = '_'

/-- Length of the maximal [A-Z_] prefix. -/
def upperRun : List Char → Nat
  | [] => 0
  | c :: r => if isUpperUnd c then upperRun r + 1 else 0

/-- r"ERR_[A-Z_]+" (Node.js error codes, case-sensitive). -/
def matchNodeErrAt (l : List Char) : Option Nat :=
  if "ERR_".toList.isPrefixOf l then
    let r := upperRun (l.drop 4)
    if r = 0 then none else some (4 + r)
  else none

/-- r"ECONNREFUSED|ENOENT|EACCES|EPERM" (POSIX errors, case-sensitive). -/
def matchPosixAt : List Char → Option Nat :=
  altCS ["ECONNREFUSED".toList, "ENOENT".toList, "EACCES".toList, "EPERM".toList]

/-- r"ModuleNotFoundError|ImportError|SyntaxError|TypeError|ValueError". -/
def matchPyExcAt : List Char → Option Nat :=
  altCS ["ModuleNotFoundError".toList, "ImportError".toList, "SyntaxError".toList,
    "TypeError".toList, "ValueError".toList]

/-- r"error TS\d+:" (TypeScript errors, case-sensitive). -/
def matchTsErrAt (l : List Char) : Option Nat :=
  if "error TS".toList.isPrefixOf l then
    let d := digitRun (l.drop 8)
    if d = 0 then none
    else
      match l.drop (8 + d) with
      | ':' :: _ => some (8 + d + 1)
      | _ => none
  else none

/-- Position of the last case-insensitive "test" occurrence reachable by .*
(no newline before it); scans left to right keeping the best position. -/
def lastTestAux : List Char → Nat → Option Nat → Option Nat
  | [], _, best => best
  | c :: r, i, best =>
    if c = '\n' then best
    else lastTestAux r (i + 1)
      (if prefixCIBool ['t', 'e', 's', 't'] (c :: r) then some i else best)

/-- First branch FAILED.*tests? of pattern 8: greedy .* picks the last "test"
on the line, greedy s? prefers a trailing s. -/
def matchFailedTestAt (l : List Char) : Option Nat :=
  if prefixCIBool "failed".toList l then
    match lastTestAux (l.drop 6) 0 none with
    | some j =>
      let e := 6 + j + 4
      match l.drop e with
      | c :: _ => if c.toLower = 's' then some (e + 1) else some e
      | [] => some e
    | none => none
  else none

/-- Second branch tests? FAILED of pattern 8; greedy s? tries the s first. -/
def matchTestFailedAt (l : List Char) : Option Nat :=
  if prefixCIBool "test".toList l then
    if prefixCIBool "s failed".toList (l.drop 4) then some 12
    else if prefixCIBool " failed".toList (l.drop 4) then some 11
    else none
  else none

/-- r"FAILED.*tests?|tests? FAILED", re.IGNORECASE. -/
def matchTestsAt (l : List Char) : Option Nat :=
  (matchFailedTestAt l).orElse (fun _ => matchTestFailedAt l)

/-- r"Build failed|Compilation failed|Cannot find module", re.IGNORECASE. -/
def matchBuildAt : List Char → Option Nat :=
  altCI ["build failed".toList, "compilation failed".toList, "cannot find module".toList]

/-- ERROR_PATTERNS in source order. -/
def errorMatchers : List (List Char → Option Nat) :=
  [matchTracebackAt, matchErrWordAt, matchRustErrAt, matchNodeErrAt, matchPosixAt,
   matchPyExcAt, matchTsErrAt, matchTestsAt, matchBuildAt]

/-- Leftmost match of a pattern: scan positions left to right, return
(start, end) of the first match. -/
def firstMatchAux (mAt : List Char → Option Nat) : List Char → Nat → Option (Nat × Nat)
  | [], _ => none
  | c :: r, i =>
    match mAt (c :: r) with
    | some n => some (i, i + n)
    | none => firstMatchAux mAt r (i + 1)

/-- p.search(text): leftmost match span, none when the pattern never matches. -/
def searchPat (mAt : List Char → Option Nat) (l : List Char) : Option (Nat × Nat) :=
  firstMatchAux mAt l 0

/-- any(p.search(line) for p in ERROR_PATTERNS). -/
def lineMatches (l : List Char) : Bool :=
  errorMatchers.any (fun mAt => (searchPat mAt l).isSome)

/-- Python str.splitlines over the boundaries \r\n, \n, \r: every segment
before a boundary is a line (possibly empty); a final segment after the last
boundary is a line only when nonempty. -/
def splitlinesAux : List Char → List Char → List (List Char)
  | [], cur => if cur.isEmpty then [] else [cur.reverse]
  | '\r' :: '\n' :: rest, cur => cur.reverse :: splitlinesAux rest []
  | '\n' :: rest, cur => cur.reverse :: splitlinesAux rest []
  | '\r' :: rest, cur => cur.reverse :: splitlinesAux rest []
  | c :: rest, cur => splitlinesAux rest (c :: cur)

def pySplitlines (l : List Char) : List (List Char) := splitlinesAux l []

/-- The line scan of _extract_error_text: a matching line flips the capture
flag; while the flag is set every line is appended; after the append that
reaches 10 lines the loop breaks. -/
def collectLines : List (List Char) → Bool → List (List Char) → List (List Char)
  | [], _, acc => acc.reverse
  | l :: rest, capture, acc =>
    let cap := capture || lineMatches l
    if cap then
      let acc2 := l :: acc
      if 10 ≤ acc2.length then acc2.reverse else collectLines rest cap acc2
    else collectLines rest cap acc

/-- The lines variable of _extract_error_text: output.strip().splitlines(). -/
def extractLines (output : String) : List (List Char) :=
  pySplitlines (pyStripChars output.toList)

/-- "\n".join. -/
def joinNl (ls : List (List Char)) : List Char := List.intercalate ['\n'] ls

/-- The fallback branch of _extract_error_text: the first pattern (in
ERROR_PATTERNS order) that matches anywhere in the raw output, with the span
of its leftmost match. -/
def fallbackScan (l : List Char) : Option (Nat × Nat) :=
  errorMatchers.findSome? (fun mAt => searchPat mAt l)

/-- _extract_error_text (hooks module): line capture first, then the windowed
fallback (≤200 chars before the match start, ≤500 after its end, clipped and
stripped), else absent. -/
def extract_error_text (output : String) : Option String :=
  let errorLines := collectLines (extractLines output) false []
  if errorLines.isEmpty then
    match fallbackScan output.toList with
    | some (s, e) =>
      let st := s - 200
      let en := min output.toList.length (e + 500)
      some (String.mk (pyStripChars ((output.toList.drop st).take (en - st))))
    | none => none
  else some (String.mk (joinNl errorLines))

end ErrorCache

namespace ErrorCache

/-! ### Python-style helpers shared by both modules -/

/-- s[:n] for a nonnegative slice bound. -/
def strTake (n : Nat) (s : String) : String := String.mk (s.toList.take n)

/-- Python list slicing l[:n] with an Int bound: a negative n counts from the
end (clamped at zero). -/
def pySliceTo {α : Type} (l : List α) (n : Int) : List α :=
  if 0 ≤ n then l.take n.toNat else l.take ((l.length : Int) + n).toNat

/-- Python str() of a decoded json value, as used inside f-strings.  The repr
of nested containers is abbreviated to fixed markers (no claim inspects it). -/
def pyStrJson : Json → String
  | .null => "None"
  | .bool true => "True"
  | .bool false => "False"
  | .num n => toString n
  | .str s => s
  | .arr _ => "[...]"
  | .obj _ => "\x7b...\x7d"

/-! ### ErrorCacheClient (hooks module)

The HTTP layer is an oracle: each call site receives the decoded response as
an Except value, .error standing for any transport or parse exception raised
inside the try block (urlopen failure, bad JSON, and the AttributeError paths
noted below are folded into the same except clause exactly as in the source).
URL construction (urllib.parse.quote) is not observable to any claim and is
not modelled beyond the truncated signature recorded in the request. -/

/-- Response processing of ErrorCacheClient.search:
results = data if isinstance(data, list) else data.get("data", []);
return results if isinstance(results, list) else [].  A non-list non-dict
body raises AttributeError at .get, caught by the except clause. -/
def processSearchResp (resp : Except Unit Json) : List Json :=
  match resp with
  | .error _ => []
  | .ok data =>
    match data with
    | .arr l => l
    | .obj _ =>
      match jgetD data "data" (.arr []) with
      | .arr l => l
      | _ => []
    | _ => []

/-- ErrorCacheClient.search: GET /search/similar with the signature truncated
to 500 characters, then processSearchResp; never raises. -/
def clientSearch (transport : String → Nat → Except Unit Json)
    (error_text : String) (limit : Nat) : List Json :=
  processSearchResp (transport (strTake 500 error_text) limit)

/-- The two POSTs ErrorCacheClient.submit can issue, in issue order. -/
inductive SubmitCall where
  | question : SubmitCall
  | answer (question_id : String) : SubmitCall
  deriving DecidableEq, Repr

/-- ErrorCacheClient.submit: POST /questions, extract data.id, then POST
/questions/id/answers; the boolean result and the list of POSTs issued.
q_data.get("data", \x7b\x7d).get("id") raises AttributeError when q_data or its
data field is not a dict; the except clause turns that into False. -/
def clientSubmit (respQ respA : Except Unit Json) : Bool × List SubmitCall :=
  match respQ with
  | .error _ => (false, [.question])
  | .ok qData =>
    if !qData.isObj then (false, [.question])
    else
      let dataField := jgetD qData "data" (.obj [])
      if !dataField.isObj then (false, [.question])
      else
        match jget dataField "id" with
        | none => (false, [.question])
        | some idv =>
          if !jsonTruthy idv then (false, [.question])
          else
            match respA with
            | .error _ => (false, [.question, .answer (pyStrJson idv)])
            | .ok _ => (true, [.question, .answer (pyStrJson idv)])

/-! ### ErrorCacheHook (hooks module) -/

structure HookResult where
  action : String
  context_injection : Option String := none
  context_injection_role : Option String := none
  ephemeral : Bool := false
  user_message : Option String := none
  user_message_level : Option String := none
  deriving DecidableEq, Repr

structure TrackedInfo where
  error_text : String
  tool_name : String
  deriving DecidableEq, Repr

/-- tracked_errors: error_key -> info.  The Python dict is modelled as an
association list queried by List.lookup; the handlers only insert fresh keys
and delete, so ordering is immaterial.  applied_solutions is never written by
any handler in the source and is omitted. -/
abbrev HookState := List (String × TrackedInfo)

def contResult : HookResult := { action := "continue" }

/-- One formatted block of _search_and_inject for the i-th solution (1-based).
Lookups inside a non-dict best_answer would raise in Python; no claim reaches
that path and the model skips the block instead. -/
def formatEntryLines (i : Nat) (q : Json) : List String :=
  let title := pyStrJson (jgetD q "title" (.str "Untitled"))
  let verifications := pyStrJson (jgetD q "verification_count" (.num 0))
  let status := pyStrJson (jgetD q "status" (.str "open"))
  let answer_count := pyStrJson (jgetD q "answer_count" (.num 0))
  let q_id := jgetD q "id" (.str "")
  let iStr := toString i
  let idStr := pyStrJson q_id
  [s!"### [{iStr}] {title}",
   s!"Status: {status} | Answers: {answer_count} | Verifications: {verifications}"]
  ++ (if jsonTruthyOpt (jget q "best_answer") then
        let ba := jgetD q "best_answer" .null
        let rc := pyStrJson (jgetD ba "root_cause" .null)
        let fx := pyStrJson (jgetD ba "fix_approach" .null)
        (if jsonTruthyOpt (jget ba "root_cause") then [s!"Root cause: {rc}"] else [])
        ++ (if jsonTruthyOpt (jget ba "fix_approach") then [s!"Fix: {fx}"] else [])
        ++ (if jsonTruthyOpt (jget ba "patch_or_commands") then
              match jgetD ba "patch_or_commands" .null with
              | .arr cmds =>
                let joined := String.intercalate " && " (cmds.map pyStrJson)
                [s!"Commands: {joined}"]
              | _ => []
            else [])
      else [])
  ++ (if jsonTruthy q_id then [s!"Link: https://errorcache.com/questions/{idStr}"] else [])
  ++ [""]

def formatEntriesFrom : Nat → List Json → List String
  | _, [] => []
  | i, q :: rest => formatEntryLines i q ++ formatEntriesFrom (i + 1) rest

/-- The context block built by _search_and_inject for a nonempty solution
list: header, up to 3 enumerated entries, closing instruction. -/
def formatSolutions (solutions : List Json) : String :=
  let n := toString solutions.length
  let header :=
    ["## ErrorCache: Verified Solutions Found", "",
     s!"Found {n} solution(s) for this error.",
     "Review these before debugging independently:", ""]
  let footer :=
    ["If you apply one of these fixes, use `errorcache verify_solution` to confirm it worked."]
  String.intercalate "\n" (header ++ formatEntriesFrom 1 (solutions.take 3) ++ footer)

/-- ErrorCacheHook._search_and_inject.  searchFn is client.search behind its
oracle; the returned Nat counts how many times the remote search ran during
this call (0 or 1), which instruments the dedup claims. -/
def searchAndInject (searchFn : String → Nat → List Json) (st : HookState)
    (error_text tool_name : String) : HookResult × HookState × Nat :=
  let key := error_key error_text
  if (st.lookup key).isSome then (contResult, st, 0)
  else
    let st2 := (key, TrackedInfo.mk error_text tool_name) :: st
    let solutions := searchFn error_text 3
    if solutions.isEmpty then (contResult, st2, 1)
    else
      let nS := toString solutions.length
      ({ action := "inject_context",
         context_injection := some (formatSolutions solutions),
         context_injection_role := some "system",
         ephemeral := true,
         user_message := some s!"ErrorCache: Found {nS} verified solution(s)",
         user_message_level := some "info" }, st2, 1)

/-- _get_output_text: str results pass through; dict results read output, a
dict output joins its truthy stdout/stderr parts; everything else is str(). -/
def getOutputText (result : Json) : String :=
  match result with
  | .str s => s
  | .obj _ =>
    let output := jgetD result "output" (.str "")
    match output with
    | .str s => s
    | .obj _ =>
      let parts :=
        (if jsonTruthyOpt (jget output "stdout") then
          [pyStrJson (jgetD output "stdout" .null)] else [])
        ++ (if jsonTruthyOpt (jget output "stderr") then
          [pyStrJson (jgetD output "stderr" .null)] else [])
      String.intercalate "\n" parts
    | other => pyStrJson other
  | other => pyStrJson other

/-- The success flag of the resolution step: result.get("success", True)
under Python truthiness when the result is a dict, True otherwise. -/
def postSuccess (result : Json) : Bool :=
  match result with
  | .obj _ => jsonTruthy (jgetD result "success" (.bool true))
  | _ => true

/-- ErrorCacheHook.handle_tool_post.  tool_name and result stand for
data.get("tool_name", "") and data.get("result", \x7b\x7d); the Nat counts remote
searches. -/
def handleToolPost (auto_search auto_submit : Bool)
    (searchFn : String → Nat → List Json) (st : HookState)
    (tool_name : String) (result : Json) : HookResult × HookState × Nat :=
  let output_text := getOutputText result
  let st1 :=
    if auto_submit && !st.isEmpty then
      if postSuccess result then st.filter (fun kv => kv.2.tool_name ≠ tool_name) else st
    else st
  if !auto_search then (contResult, st1, 0)
  else if !(["bash", "Bash", "shell", "run_command"].contains tool_name) then
    (contResult, st1, 0)
  else if output_text = "" || output_text.length < 20 then (contResult, st1, 0)
  else
    match extract_error_text output_text with
    | none => (contResult, st1, 0)
    | some etext => searchAndInject searchFn st1 etext tool_name

/-- ErrorCacheHook.handle_tool_error.  error_info and tool_name stand for
data.get("error", \x7b\x7d) and data.get("tool_name", "unknown"). -/
def handleToolError (auto_search : Bool) (searchFn : String → Nat → List Json)
    (st : HookState) (error_info : Json) (tool_name : String) :
    HookResult × HookState × Nat :=
  if !auto_search then (contResult, st, 0)
  else
    let etype := pyStrJson (jgetD error_info "type" (.str "Error"))
    let emsg := pyStrJson (jgetD error_info "msg" (.str ""))
    searchAndInject searchFn st (etype ++ ": " ++ emsg) tool_name

/-! ### Configuration resolution (mount functions of both modules) -/

/-- Scan for a literal close brace before any newline (the \x2e+\x7d part of the
unresolved-variable pattern, existence only). -/
def hasCloseBrace : List Char → Bool
  | [] => false
  | '\n' :: _ => false
  | '\x7d' :: _ => true
  | _ :: r => hasCloseBrace r

/-- After an opening dollar-brace: at least one non-newline character, then a
close brace. -/
def closeAfter : List Char → Bool
  | [] => false
  | c :: r => c ≠ '\n' && hasCloseBrace r

/-- _UNRESOLVED_VAR.search: does the text contain a match of r"\$\x7b.+\x7d". -/
def hasUnresolvedVar : List Char → Bool
  | '$' :: '\x7b' :: r => closeAfter r || hasUnresolvedVar ('\x7b' :: r)
  | _ :: r => hasUnresolvedVar r
  | [] => false

/-- _resolve_env (hooks module): a truthy config value without an unresolved
placeholder wins; otherwise the environment variable, then the default.
envVal stands for os.environ.get(env_var). -/
def resolve_env (value : Option String) (envVal : Option String) (default : String) :
    String :=
  match value with
  | some v => if v ≠ "" && !hasUnresolvedVar v.toList then v else envVal.getD default
  | none => envVal.getD default

/-- Config lookup of the tool module mount: config.get(key, default) with no
environment fallback and no placeholder handling. -/
def toolConfigGet (value : Option String) (default : String) : String :=
  value.getD default

end ErrorCache

namespace ErrorCache

/-! ### ErrorCacheTool (tool module)

ErrorCacheAPI._get/_post return the decoded body, or an object carrying an
"error" key when any exception was raised; both behaviours are folded into
the Json oracle parameters: a transport failure is represented by the caller
passing such an error object, exactly what _get/_post produce.  Requests are
recorded as structured ApiCall values (URL assembly and percent-encoding are
not observable to any claim). -/

/-- The remote requests the tool can issue. -/
inductive ApiCall where
  | getSimilar (signature : String) (lim : Int)
  | getSearch (q : String) (lim : Int) (language framework : String)
  | postQuestion (title : String)
  | postAnswer (question_id : String)
  | postVerify (answer_id : String)
  deriving DecidableEq, Repr

/-- The JSON-schema input of ErrorCacheTool.execute; absent fields are none
(Python dict.get).  A present null value and an absent key are conflated. -/
structure ToolInput where
  operation : Option String := none
  error_message : Option String := none
  language : Option String := none
  framework : Option String := none
  lim : Option Int := none
  title : Option String := none
  error_signature : Option String := none
  error_category : Option String := none
  root_cause : Option String := none
  fix_approach : Option String := none
  commands : Option (List String) := none
  question_id : Option String := none
  answer_id : Option String := none
  result : Option String := none
  evidence : Option Json := none

structure ToolResult where
  success : Bool
  output : Json := .null
  error : Json := .null
  deriving DecidableEq, Repr

def failResult (msg : String) : ToolResult :=
  { success := false, error := .obj [("message", .str msg)] }

/-- One formatted entry of the search_errors output (lines 221-241). -/
def formatQuestionEntry (q : Json) : Json :=
  let idStr := pyStrJson (jgetD q "id" (.str ""))
  let base :=
    [("id", jgetD q "id" .null),
     ("title", jgetD q "title" .null),
     ("status", jgetD q "status" .null),
     ("answer_count", jgetD q "answer_count" (.num 0)),
     ("verification_count", jgetD q "verification_count" (.num 0)),
     ("link", Json.str ("https://errorcache.com/questions/" ++ idStr))]
  if jsonTruthyOpt (jget q "best_answer") then
    let ba := jgetD q "best_answer" .null
    .obj (base ++
      [("best_answer", .obj
        [("id", jgetD ba "id" .null),
         ("root_cause", jgetD ba "root_cause" .null),
         ("fix_approach", jgetD ba "fix_approach" .null),
         ("commands", jgetD ba "patch_or_commands" .null),
         ("verification_count", jgetD ba "verification_count" (.num 0)),
         ("success_rate", jgetD ba "success_rate" .null)])])
  else .obj base

/-- Intermediate and final data of one ErrorCacheTool._search run (resp1 and
resp2 are what _get returned for the two phases; resp2 is consulted only when
phase 2 fires). -/
structure SearchAudit where
  toolResult : ToolResult
  calls : List ApiCall
  phase1Questions : List Json
  phase2Limit : Option Int
  phase2Questions : Option (List Json)
  appended : List Json
  merged : List Json
  formatted : List Json
  count : Option Nat
  deriving Repr

/-- Phase-1 question list of ErrorCacheTool._search: a dict response without
a truthy error key contributes its data field (defaulting to the whole body)
when that is a list. -/
def phase1Qs (resp1 : Json) : List Json :=
  if resp1.isObj && !jsonTruthyOpt (jget resp1 "error") then
    match jgetD resp1 "data" resp1 with
    | .arr l => l
    | _ => []
  else []

/-- Parse of the phase-2 full-text response: the questions field of data (or
data itself, or the body) when that is a list. -/
def ftsQs (resp2 : Json) : Option (List Json) :=
  if resp2.isObj && !jsonTruthyOpt (jget resp2 "error") then
    let ftsData := jgetD resp2 "data" resp2
    let fq := if ftsData.isObj then jgetD ftsData "questions" ftsData else ftsData
    match fq with
    | .arr l2 => some l2
    | _ => none
  else none

/-- The phase-2 decision: fire exactly when phase 1 returned fewer than lim,
with the remaining capacity and the parsed response. -/
def phase2Opt (qs : List Json) (lim : Int) (resp2 : Json) :
    Option (Int × Option (List Json)) :=
  if (qs.length : Int) < lim then some (lim - (qs.length : Int), ftsQs resp2)
  else none

/-- The entries the merge loop appends: phase-2 entries whose id is not among
the phase-1 ids (the seen set is computed once and not updated). -/
def appendedQs (qs : List Json) (p2 : Option (Int × Option (List Json))) : List Json :=
  let seen := qs.map (fun q => jget q "id")
  match p2 with
  | some (_, some l2) => l2.filter (fun q => !(seen.contains (jget q "id")))
  | _ => []

/-- The merged question list after both phases. -/
def mergedQs (lim : Int) (resp1 resp2 : Json) : List Json :=
  phase1Qs resp1 ++ appendedQs (phase1Qs resp1) (phase2Opt (phase1Qs resp1) lim resp2)

/-- ErrorCacheTool._search (lines 173-247). -/
def toolSearchModel (inp : ToolInput) (resp1 resp2 : Json) : SearchAudit :=
  let error_msg := inp.error_message.getD ""
  if error_msg = "" || error_msg.length < 3 then
    { toolResult := failResult "error_message is required (min 3 chars)",
      calls := [], phase1Questions := [], phase2Limit := none,
      phase2Questions := none, appended := [], merged := [],
      formatted := [], count := none }
  else
    let lim := inp.lim.getD 5
    let language := inp.language.getD ""
    let framework := inp.framework.getD ""
    let questions := phase1Qs resp1
    let phase2 := phase2Opt questions lim resp2
    let appended := appendedQs questions phase2
    let merged := mergedQs lim resp1 resp2
    let searchMethod :=
      if jsonTruthy resp1 && resp1.isObj && jsonTruthyOpt (jget resp1 "search_method")
      then "hybrid" else "signature+fts"
    let calls :=
      [ApiCall.getSimilar (strTake 500 error_msg) lim]
      ++ (match phase2 with
          | some (remaining, _) =>
            [ApiCall.getSearch (strTake 200 error_msg) remaining language framework]
          | none => [])
    if merged.isEmpty then
      { toolResult :=
          { success := true,
            output := .obj [("message", .str "No solutions found"),
              ("search_method", .str searchMethod),
              ("suggestion", .str "Use submit_solution to share if you solve this error")] },
        calls := calls, phase1Questions := questions,
        phase2Limit := phase2.map Prod.fst,
        phase2Questions := phase2.bind Prod.snd,
        appended := appended, merged := merged, formatted := [], count := none }
    else
      let formatted := (pySliceTo merged lim).map formatQuestionEntry
      { toolResult :=
          { success := true,
            output := .obj [("results", .arr formatted),
              ("count", .num (formatted.length : Int)),
              ("search_method", .str searchMethod)] },
        calls := calls, phase1Questions := questions,
        phase2Limit := phase2.map Prod.fst,
        phase2Questions := phase2.bind Prod.snd,
        appended := appended, merged := merged,
        formatted := formatted, count := some formatted.length }

/-- The falsiness test Python applies to question_id from input.get: None and
the empty string fall through to question creation. -/
def presentId : Option String → Option String
  | some s => if s = "" then none else some s
  | none => none

/-- ErrorCacheTool._submit (lines 249-301).  respQ and respA are the _post
results for question creation and answer creation.  A truthy non-dict
response would raise AttributeError at .get in Python and surface through
execute's except clause; that path is modelled by the same failure result. -/
def toolSubmitModel (inp : ToolInput) (respQ respA : Json) : ToolResult × List ApiCall :=
  let title := inp.title.getD ""
  let error_sig := inp.error_signature.getD ""
  let root_cause := inp.root_cause.getD ""
  let fix_approach := inp.fix_approach.getD ""
  if root_cause = "" || root_cause.length < 20 then
    (failResult "root_cause required (min 20 chars)", [])
  else if fix_approach = "" || fix_approach.length < 20 then
    (failResult "fix_approach required (min 20 chars)", [])
  else
    let step2 : String → List ApiCall → ToolResult × List ApiCall := fun qid calls =>
      let calls2 := calls ++ [ApiCall.postAnswer qid]
      if !jsonTruthy respA || jsonTruthyOpt (jget respA "error") || !respA.isObj then
        let ra := pyStrJson respA
        (failResult s!"Failed to submit answer: {ra}", calls2)
      else
        let answer_id := pyStrJson (jgetD (jgetD respA "data" (.obj [])) "id" (.str "unknown"))
        ({ success := true,
           output := .obj [("message", .str "Solution submitted to ErrorCache"),
             ("question_id", .str qid), ("answer_id", .str answer_id),
             ("link", Json.str ("https://errorcache.com/questions/" ++ qid))] }, calls2)
    match presentId inp.question_id with
    | some qid => step2 qid []
    | none =>
      if title = "" || error_sig = "" then
        (failResult "title and error_signature required when not providing question_id", [])
      else
        let calls1 := [ApiCall.postQuestion (strTake 300 title)]
        if !jsonTruthy respQ || jsonTruthyOpt (jget respQ "error") || !respQ.isObj then
          let rq := pyStrJson respQ
          (failResult s!"Failed to create question: {rq}", calls1)
        else
          match presentId (match jgetD (jgetD respQ "data" (.obj [])) "id" .null with
            | .str s => some s
            | _ => none) with
          | none => (failResult "No question ID returned", calls1)
          | some qid => step2 qid calls1

/-- ErrorCacheTool._verify (lines 303-328). -/
def toolVerifyModel (inp : ToolInput) (respV : Json) : ToolResult × List ApiCall :=
  let answer_id := inp.answer_id.getD ""
  let vres := inp.result.getD ""
  if answer_id = "" then (failResult "answer_id is required", [])
  else if !(["pass", "fail", "partial"].contains vres) then
    (failResult "result must be pass, fail, or partial", [])
  else
    let calls := [ApiCall.postVerify answer_id]
    if !jsonTruthy respV || jsonTruthyOpt (jget respV "error") || !respV.isObj then
      let rv := pyStrJson respV
      (failResult s!"Verification failed: {rv}", calls)
    else
      ({ success := true,
         output := .obj [("message", Json.str ("Verification recorded: " ++ vres)),
           ("answer_id", .str answer_id)] }, calls)

/-- ErrorCacheTool.execute: dispatch on operation; an unknown or missing
operation is a structured failure with no remote call. -/
def toolExecute (inp : ToolInput) (resp1 resp2 respQ respA respV : Json) :
    ToolResult × List ApiCall :=
  match inp.operation with
  | some "search_errors" =>
    let a := toolSearchModel inp resp1 resp2
    (a.toolResult, a.calls)
  | some "submit_solution" => toolSubmitModel inp respQ respA
  | some "verify_solution" => toolVerifyModel inp respV
  | some op => (failResult s!"Unknown operation: {op}", [])
  | none => (failResult "Unknown operation: None", [])

end ErrorCache

namespace ErrorCache

theorem substFuel_nil (m : List Char → Option Nat) (rep : List Char) (f : Nat) :
    substFuel m rep f [] = [] := by
  cases f <;> rfl

theorem substFuel_congrFuel (m : List Char → Option Nat) (rep : List Char) :
    ∀ (f g : Nat) (l : List Char), l.length ≤ f → l.length ≤ g →
      substFuel m rep f l = substFuel m rep g l := by
  intro f
  induction f with
  | zero =>
    intro g l hf _
    have : l = [] := List.eq_nil_of_length_eq_zero (Nat.le_zero.mp hf)
    subst this
    rw [substFuel_nil, substFuel_nil]
  | succ f ih =>
    intro g l hf hg
    match l, g with
    | [], g => rw [substFuel_nil, substFuel_nil]
    | c :: rest, 0 => exact absurd hg (by simp)
    | c :: rest, g + 1 =>
      show substFuel m rep (f + 1) (c :: rest) = substFuel m rep (g + 1) (c :: rest)
      rw [substFuel, substFuel]
      cases hm : m (c :: rest) with
      | some n =>
        simp only []
        have hlen : (rest.drop (n - 1)).length ≤ rest.length := by
          rw [List.length_drop]; exact Nat.sub_le _ _
        have h1 : rest.length ≤ f := by simpa using Nat.succ_le_succ_iff.mp hf
        have h2 : rest.length ≤ g := by simpa using Nat.succ_le_succ_iff.mp hg
        rw [ih g (rest.drop (n - 1)) (le_trans hlen h1) (le_trans hlen h2)]
      | none =>
        simp only []
        have h1 : rest.length ≤ f := by simpa using Nat.succ_le_succ_iff.mp hf
        have h2 : rest.length ≤ g := by simpa using Nat.succ_le_succ_iff.mp hg
        rw [ih g rest h1 h2]

theorem subst_cons (m : List Char → Option Nat) (rep : List Char) (c : Char)
    (rest : List Char) :
    subst m rep (c :: rest) =
      match m (c :: rest) with
      | some n => rep ++ subst m rep (rest.drop (n - 1))
      | none => c :: subst m rep rest := by
  show substFuel m rep (rest.length + 1) (c :: rest) = _
  rw [substFuel]
  cases hm : m (c :: rest) with
  | some n =>
    simp only []
    rw [substFuel_congrFuel m rep rest.length (rest.drop (n - 1)).length (rest.drop (n - 1))
      (by rw [List.length_drop]; exact Nat.sub_le _ _) le_rfl]
    rfl
  | none => rfl

end ErrorCache

namespace ErrorCache

theorem substOnFuel_nil (m : List Char → Option Nat) (rep rest : List Char) (f : Nat) :
    substOnFuel m rep f [] rest = [] := by
  cases f <;> rfl

theorem substOnFuel_congrFuel (m : List Char → Option Nat) (rep rest : List Char) :
    ∀ (f g : Nat) (p : List Char), p.length ≤ f → p.length ≤ g →
      substOnFuel m rep f p rest = substOnFuel m rep g p rest := by
  intro f
  induction f with
  | zero =>
    intro g p hf _
    have : p = [] := List.eq_nil_of_length_eq_zero (Nat.le_zero.mp hf)
    subst this
    rw [substOnFuel_nil, substOnFuel_nil]
  | succ f ih =>
    intro g p hf hg
    match p, g with
    | [], g => rw [substOnFuel_nil, substOnFuel_nil]
    | c :: p, 0 => exact absurd hg (by simp)
    | c :: p, g + 1 =>
      show substOnFuel m rep (f + 1) (c :: p) rest = substOnFuel m rep (g + 1) (c :: p) rest
      rw [substOnFuel, substOnFuel]
      cases hm : m (c :: p ++ rest) with
      | some n =>
        simp only []
        have hlen : (p.drop (n - 1)).length ≤ p.length := by
          rw [List.length_drop]; exact Nat.sub_le _ _
        have h1 : p.length ≤ f := by simpa using Nat.succ_le_succ_iff.mp hf
        have h2 : p.length ≤ g := by simpa using Nat.succ_le_succ_iff.mp hg
        rw [ih g (p.drop (n - 1)) (le_trans hlen h1) (le_trans hlen h2)]
      | none =>
        simp only []
        have h1 : p.length ≤ f := by simpa using Nat.succ_le_succ_iff.mp hf
        have h2 : p.length ≤ g := by simpa using Nat.succ_le_succ_iff.mp hg
        rw [ih g p h1 h2]

theorem substOn_cons (m : List Char → Option Nat) (rep : List Char) (c : Char)
    (p rest : List Char) :
    substOn m rep (c :: p) rest =
      match m (c :: p ++ rest) with
      | some n => rep ++ substOn m rep (p.drop (n - 1)) rest
      | none => c :: substOn m rep p rest := by
  show substOnFuel m rep (p.length + 1) (c :: p) rest = _
  rw [substOnFuel]
  cases hm : m (c :: p ++ rest) with
  | some n =>
    simp only []
    rw [substOnFuel_congrFuel m rep rest p.length (p.drop (n - 1)).length (p.drop (n - 1))
      (by rw [List.length_drop]; exact Nat.sub_le _ _) le_rfl]
    rfl
  | none => rfl

/-- When no match inside the token fires (at any offset, with the given right
context), the scanner copies the token verbatim. -/
theorem subst_transparent (m : List Char → Option Nat) (rep : List Char) :
    ∀ (t post : List Char), (∀ i, i < t.length → m (t.drop i ++ post) = none) →
      subst m rep (t ++ post) = t ++ subst m rep post := by
  intro t
  induction t with
  | nil => intro post _; rfl
  | cons c t ih =>
    intro post h
    have h0 : m (c :: (t ++ post)) = none := by
      have h1 := h 0 (by simp)
      simpa using h1
    rw [List.cons_append, subst_cons, h0]
    simp only []
    rw [ih post (fun i hi => by simpa using h (i + 1) (by simpa using Nat.succ_lt_succ hi))]
    rfl

/-- When the match at the token start consumes exactly the token, the scanner
emits the replacement and resumes at the right context. -/
theorem subst_consume (m : List Char → Option Nat) (rep : List Char)
    (t post : List Char) (hne : t ≠ []) (h : m (t ++ post) = some t.length) :
    subst m rep (t ++ post) = rep ++ subst m rep post := by
  match t, hne with
  | c :: t, _ =>
    rw [List.cons_append, subst_cons]
    rw [List.cons_append] at h
    rw [h]
    simp only []
    have : (t ++ post).drop ((c :: t).length - 1) = post := by
      simp only [List.length_cons, Nat.add_sub_cancel]
      exact List.drop_left t post
    rw [this]

end ErrorCache

namespace ErrorCache

/-- When every match attempt inside the prefix stays inside the prefix
(nonempty-suffix match lengths bounded by the suffix length), the scanner
splits at the boundary. -/
theorem subst_decompose (m : List Char → Option Nat) (rep : List Char)
    (rest : List Char) :
    ∀ (pre : List Char),
      (∀ i, i < pre.length → ∀ n, m (pre.drop i ++ rest) = some n →
        n ≤ pre.length - i) →
      subst m rep (pre ++ rest) = substOn m rep pre rest ++ subst m rep rest := by
  suffices H : ∀ (k : Nat) (pre : List Char), pre.length ≤ k →
      (∀ i, i < pre.length → ∀ n, m (pre.drop i ++ rest) = some n →
        n ≤ pre.length - i) →
      subst m rep (pre ++ rest) = substOn m rep pre rest ++ subst m rep rest by
    intro pre hb
    exact H pre.length pre le_rfl hb
  intro k
  induction k with
  | zero =>
    intro pre hlen _
    have : pre = [] := List.eq_nil_of_length_eq_zero (Nat.le_zero.mp hlen)
    subst this
    rfl
  | succ k ih =>
    intro pre hlen hb
    match pre with
    | [] => rfl
    | c :: p =>
      rw [List.cons_append, subst_cons, substOn_cons]
      simp only [List.cons_append]
      cases hm : m (c :: (p ++ rest)) with
      | none =>
        simp only []
        rw [ih p (by simpa using Nat.succ_le_succ_iff.mp hlen)
          (fun i hi n hn => by
            have h2 := hb (i + 1) (by simpa using Nat.succ_lt_succ hi) n
              (by simpa using hn)
            simp only [List.length_cons] at h2
            omega)]
        rw [List.cons_append]
      | some n =>
        simp only []
        have hbound : n ≤ p.length + 1 := by
          have h2 := hb 0 (by simp) n (by simpa using hm)
          simpa using h2
        have hsplit : (p ++ rest).drop (n - 1) = p.drop (n - 1) ++ rest :=
          List.drop_append_of_le_length (by omega)
        rw [hsplit]
        have hplen : (p.drop (n - 1)).length ≤ k := by
          rw [List.length_drop]
          have : p.length ≤ k := by simpa using Nat.succ_le_succ_iff.mp hlen
          omega
        rw [ih (p.drop (n - 1)) hplen
          (fun i hi n2 hn2 => by
            have hdrop : (p.drop (n - 1)).drop i = (c :: p).drop (1 + (n - 1) + i) := by
              rw [List.drop_drop]
              show List.drop (n - 1 + i) p = List.drop (1 + (n - 1) + i) (c :: p)
              have h3 : (1 + (n - 1) + i) = (n - 1 + i) + 1 := by omega
              rw [h3]
              rfl
            rw [hdrop] at hn2
            have hi2 : 1 + (n - 1) + i < (c :: p).length := by
              simp only [List.length_drop] at hi
              simp only [List.length_cons]
              omega
            have h4 := hb (1 + (n - 1) + i) hi2 n2 hn2
            simp only [List.length_drop]
            simp only [List.length_cons] at h4
            omega)]
        rw [List.append_assoc]

/-- When every match attempt inside the prefix is insensitive to swapping the
right context, the prefix scan is too. -/
theorem substOn_congr (m : List Char → Option Nat) (rep : List Char)
    (r1 r2 : List Char) :
    ∀ (pre : List Char),
      (∀ i, i < pre.length → m (pre.drop i ++ r1) = m (pre.drop i ++ r2)) →
      substOn m rep pre r1 = substOn m rep pre r2 := by
  suffices H : ∀ (k : Nat) (pre : List Char), pre.length ≤ k →
      (∀ i, i < pre.length → m (pre.drop i ++ r1) = m (pre.drop i ++ r2)) →
      substOn m rep pre r1 = substOn m rep pre r2 by
    intro pre hb
    exact H pre.length pre le_rfl hb
  intro k
  induction k with
  | zero =>
    intro pre hlen _
    have : pre = [] := List.eq_nil_of_length_eq_zero (Nat.le_zero.mp hlen)
    subst this
    rfl
  | succ k ih =>
    intro pre hlen hb
    match pre with
    | [] => rfl
    | c :: p =>
      rw [substOn_cons, substOn_cons]
      simp only [List.cons_append]
      have h0 : m (c :: (p ++ r1)) = m (c :: (p ++ r2)) := by
        have h1 := hb 0 (by simp)
        simpa using h1
      rw [← h0]
      cases hm : m (c :: (p ++ r1)) with
      | none =>
        simp only []
        rw [ih p (by simpa using Nat.succ_le_succ_iff.mp hlen)
          (fun i hi => by
            have h2 := hb (i + 1) (by simpa using Nat.succ_lt_succ hi)
            simpa using h2)]
      | some n =>
        simp only []
        have hplen : (p.drop (n - 1)).length ≤ k := by
          rw [List.length_drop]
          have : p.length ≤ k := by simpa using Nat.succ_le_succ_iff.mp hlen
          omega
        rw [ih (p.drop (n - 1)) hplen
          (fun i hi => by
            have hdrop : (p.drop (n - 1)).drop i = (c :: p).drop (1 + (n - 1) + i) := by
              rw [List.drop_drop]
              show List.drop (n - 1 + i) p = List.drop (1 + (n - 1) + i) (c :: p)
              have h3 : (1 + (n - 1) + i) = (n - 1 + i) + 1 := by omega
              rw [h3]
              rfl
            have hi2 : 1 + (n - 1) + i < (c :: p).length := by
              simp only [List.length_drop] at hi
              simp only [List.length_cons]
              omega
            have h4 := hb (1 + (n - 1) + i) hi2
            rw [hdrop]
            simpa using h4)]

end ErrorCache

namespace ErrorCache

/-- Equal scans on the prefix, exact token matches: one substitution pass maps
both texts to the same output. -/
theorem subst_equalize (m : List Char → Option Nat) (rep : List Char)
    (pre t1 t2 post : List Char)
    (hb1 : ∀ i, i < pre.length → ∀ n, m (pre.drop i ++ (t1 ++ post)) = some n →
      n ≤ pre.length - i)
    (heq : ∀ i, i < pre.length →
      m (pre.drop i ++ (t1 ++ post)) = m (pre.drop i ++ (t2 ++ post)))
    (ht1 : m (t1 ++ post) = some t1.length) (ht2 : m (t2 ++ post) = some t2.length)
    (hne1 : t1 ≠ []) (hne2 : t2 ≠ []) :
    subst m rep (pre ++ (t1 ++ post)) = subst m rep (pre ++ (t2 ++ post)) := by
  have hb2 : ∀ i, i < pre.length → ∀ n, m (pre.drop i ++ (t2 ++ post)) = some n →
      n ≤ pre.length - i := by
    intro i hi n hn
    exact hb1 i hi n (by rw [heq i hi]; exact hn)
  rw [subst_decompose m rep (t1 ++ post) pre hb1,
    subst_decompose m rep (t2 ++ post) pre hb2,
    subst_consume m rep t1 post hne1 ht1,
    subst_consume m rep t2 post hne2 ht2,
    substOn_congr m rep (t1 ++ post) (t2 ++ post) pre heq]

/-- Bounded prefix scans and no match inside the token: one substitution pass
keeps the token in place, transforming its two sides independently. -/
theorem subst_keep_token (m : List Char → Option Nat) (rep : List Char)
    (pre t post : List Char)
    (hb : ∀ i, i < pre.length → ∀ n, m (pre.drop i ++ (t ++ post)) = some n →
      n ≤ pre.length - i)
    (ht : ∀ i, i < t.length → m (t.drop i ++ post) = none) :
    subst m rep (pre ++ (t ++ post)) =
      substOn m rep pre (t ++ post) ++ (t ++ subst m rep post) := by
  rw [subst_decompose m rep (t ++ post) pre hb, subst_transparent m rep t post ht]

/-! ### Decidable side conditions of the amended normalization claim -/

/-- Every match attempted at a position of the prefix (with the given right
context) stays inside the prefix. -/
def scanBound (m : List Char → Option Nat) (pre rest : List Char) : Bool :=
  (List.range pre.length).all (fun i =>
    match m (pre.drop i ++ rest) with
    | some n => decide (n ≤ pre.length - i)
    | none => true)

/-- Matches attempted at positions of the prefix agree for the two right
contexts. -/
def scanAgrees (m : List Char → Option Nat) (pre r1 r2 : List Char) : Bool :=
  (List.range pre.length).all (fun i => m (pre.drop i ++ r1) == m (pre.drop i ++ r2))

/-- No match fires at any position inside the token (with its right context). -/
def noMatchInside (m : List Char → Option Nat) (t post : List Char) : Bool :=
  (List.range t.length).all (fun i => m (t.drop i ++ post) == none)

/-- The match at the token start consumes exactly the token. -/
def exactMatch (m : List Char → Option Nat) (t post : List Char) : Bool :=
  m (t ++ post) == some t.length

theorem scanBound_spec (m : List Char → Option Nat) (pre rest : List Char)
    (h : scanBound m pre rest = true) :
    ∀ i, i < pre.length → ∀ n, m (pre.drop i ++ rest) = some n →
      n ≤ pre.length - i := by
  intro i hi n hn
  have h2 := List.all_eq_true.mp h i (List.mem_range.mpr hi)
  rw [hn] at h2
  exact of_decide_eq_true h2

theorem scanAgrees_spec (m : List Char → Option Nat) (pre r1 r2 : List Char)
    (h : scanAgrees m pre r1 r2 = true) :
    ∀ i, i < pre.length → m (pre.drop i ++ r1) = m (pre.drop i ++ r2) := by
  intro i hi
  have h2 := List.all_eq_true.mp h i (List.mem_range.mpr hi)
  exact eq_of_beq h2

theorem noMatchInside_spec (m : List Char → Option Nat) (t post : List Char)
    (h : noMatchInside m t post = true) :
    ∀ i, i < t.length → m (t.drop i ++ post) = none := by
  intro i hi
  have h2 := List.all_eq_true.mp h i (List.mem_range.mpr hi)
  exact eq_of_beq h2

theorem exactMatch_spec (m : List Char → Option Nat) (t post : List Char)
    (h : exactMatch m t post = true) : m (t ++ post) = some t.length :=
  eq_of_beq h

/-! ### Token shapes (what "a token of the same shape" means) -/

/-- A full match of the file-path pattern: a slash, a nonempty run of class
characters, a dot and one of the listed extensions, consuming the whole
token. -/
def fullPathToken (t : List Char) : Bool :=
  match t with
  | '/' :: rest =>
    srcExts.any (fun e =>
      let k := rest.length - (e.length + 1)
      decide (e.length + 1 < rest.length) &&
      rest.drop k == '.' :: e && (rest.take k).all isPathChar)
  | _ => false

inductive TokenKind where
  | path : TokenKind
  | linecol : TokenKind
  | lineNum : TokenKind
  deriving DecidableEq, Repr

/-- A token fully matching the pattern of the given kind (the line-column and
line-number matchers are deterministic, so a full match is an exact match of
the whole token). -/
def tokenShape : TokenKind → List Char → Bool
  | .path, t => fullPathToken t
  | .linecol, t => matchLineColAt t == some t.length
  | .lineNum, t => matchLineAt t == some t.length

/-- The relation of claim C2: the two texts differ only in one substituted
token, both sides being full tokens of the same kind. -/
def DiffersOnlyInToken (A B : String) : Prop :=
  ∃ (k : TokenKind) (pre t1 t2 post : List Char),
    A.toList = pre ++ (t1 ++ post) ∧ B.toList = pre ++ (t2 ++ post) ∧
    tokenShape k t1 = true ∧ tokenShape k t2 = true

end ErrorCache

namespace ErrorCache

/-- Side conditions under which substituting one token is invisible to the
normalization pipeline: at every stage the prefix is scanned identically
around both tokens and never into them, the token passes untouched through
the stages for other patterns, and the stage for its own pattern matches it
exactly.  All conjuncts are decidable, so concrete instances evaluate. -/
def InsensitiveCond : TokenKind → List Char → List Char → List Char → List Char → Prop
  | .path, pre, t1, t2, post =>
    t1 ≠ [] ∧ t2 ≠ [] ∧
    scanBound matchPathAt pre (t1 ++ post) = true ∧
    scanAgrees matchPathAt pre (t1 ++ post) (t2 ++ post) = true ∧
    exactMatch matchPathAt t1 post = true ∧
    exactMatch matchPathAt t2 post = true
  | .linecol, pre, t1, t2, post =>
    t1 ≠ [] ∧ t2 ≠ [] ∧
    scanBound matchPathAt pre (t1 ++ post) = true ∧
    scanAgrees matchPathAt pre (t1 ++ post) (t2 ++ post) = true ∧
    noMatchInside matchPathAt t1 post = true ∧
    noMatchInside matchPathAt t2 post = true ∧
    scanBound matchLineColAt (substOn matchPathAt "<FILE>".toList pre (t1 ++ post))
      (t1 ++ subPath post) = true ∧
    scanAgrees matchLineColAt (substOn matchPathAt "<FILE>".toList pre (t1 ++ post))
      (t1 ++ subPath post) (t2 ++ subPath post) = true ∧
    exactMatch matchLineColAt t1 (subPath post) = true ∧
    exactMatch matchLineColAt t2 (subPath post) = true
  | .lineNum, pre, t1, t2, post =>
    t1 ≠ [] ∧ t2 ≠ [] ∧
    scanBound matchPathAt pre (t1 ++ post) = true ∧
    scanAgrees matchPathAt pre (t1 ++ post) (t2 ++ post) = true ∧
    noMatchInside matchPathAt t1 post = true ∧
    noMatchInside matchPathAt t2 post = true ∧
    scanBound matchLineColAt (substOn matchPathAt "<FILE>".toList pre (t1 ++ post))
      (t1 ++ subPath post) = true ∧
    scanAgrees matchLineColAt (substOn matchPathAt "<FILE>".toList pre (t1 ++ post))
      (t1 ++ subPath post) (t2 ++ subPath post) = true ∧
    noMatchInside matchLineColAt t1 (subPath post) = true ∧
    noMatchInside matchLineColAt t2 (subPath post) = true ∧
    scanBound matchLineAt
      (substOn matchLineColAt ":<N>".toList
        (substOn matchPathAt "<FILE>".toList pre (t1 ++ post)) (t1 ++ subPath post))
      (t1 ++ subLineCol (subPath post)) = true ∧
    scanAgrees matchLineAt
      (substOn matchLineColAt ":<N>".toList
        (substOn matchPathAt "<FILE>".toList pre (t1 ++ post)) (t1 ++ subPath post))
      (t1 ++ subLineCol (subPath post)) (t2 ++ subLineCol (subPath post)) = true ∧
    exactMatch matchLineAt t1 (subLineCol (subPath post)) = true ∧
    exactMatch matchLineAt t2 (subLineCol (subPath post)) = true

instance (k : TokenKind) (pre t1 t2 post : List Char) :
    Decidable (InsensitiveCond k pre t1 t2 post) := by
  cases k <;> (unfold InsensitiveCond; infer_instance)

end ErrorCache

namespace ErrorCache

/-- Claim C2 (amended): for every pair of error texts of the form
pre ++ token ++ post that differ only in a source-file path, a line-column
token, or a line-number phrase, the dedup-key normalization returns the same
key for both texts, provided the substitution is non-interfering: at each
stage the shared context is scanned identically around both tokens and no
match crosses into a token, and each token is matched exactly by the stage
for its own pattern. -/
theorem claim_C2_amended (k : TokenKind) (pre t1 t2 post : List Char)
    (h : InsensitiveCond k pre t1 t2 post) :
    error_key (String.mk (pre ++ (t1 ++ post))) =
      error_key (String.mk (pre ++ (t2 ++ post))) := by
  suffices hmain : subLineNum (subLineCol (subPath (pre ++ (t1 ++ post)))) =
      subLineNum (subLineCol (subPath (pre ++ (t2 ++ post)))) by
    unfold error_key
    have hA : (String.mk (pre ++ (t1 ++ post))).toList = pre ++ (t1 ++ post) := rfl
    have hB : (String.mk (pre ++ (t2 ++ post))).toList = pre ++ (t2 ++ post) := rfl
    rw [hA, hB, hmain]
  cases k with
  | path =>
    obtain ⟨hne1, hne2, hb, hag, hx1, hx2⟩ := h
    have e1 : subPath (pre ++ (t1 ++ post)) = subPath (pre ++ (t2 ++ post)) :=
      subst_equalize matchPathAt "<FILE>".toList pre t1 t2 post
        (scanBound_spec _ _ _ hb) (scanAgrees_spec _ _ _ _ hag)
        (exactMatch_spec _ _ _ hx1) (exactMatch_spec _ _ _ hx2) hne1 hne2
    rw [e1]
  | linecol =>
    obtain ⟨hne1, hne2, hb1, hag1, hin1, hin2, hb2, hag2, hx1, hx2⟩ := h
    have hA : subPath (pre ++ (t1 ++ post)) =
        substOn matchPathAt "<FILE>".toList pre (t1 ++ post) ++ (t1 ++ subPath post) :=
      subst_keep_token matchPathAt "<FILE>".toList pre t1 post
        (scanBound_spec _ _ _ hb1) (noMatchInside_spec _ _ _ hin1)
    have hB : subPath (pre ++ (t2 ++ post)) =
        substOn matchPathAt "<FILE>".toList pre (t2 ++ post) ++ (t2 ++ subPath post) :=
      subst_keep_token matchPathAt "<FILE>".toList pre t2 post
        (fun i hi n hn => scanBound_spec _ _ _ hb1 i hi n
          (by rw [scanAgrees_spec _ _ _ _ hag1 i hi]; exact hn))
        (noMatchInside_spec _ _ _ hin2)
    have hCeq : substOn matchPathAt "<FILE>".toList pre (t2 ++ post) =
        substOn matchPathAt "<FILE>".toList pre (t1 ++ post) :=
      (substOn_congr matchPathAt "<FILE>".toList (t1 ++ post) (t2 ++ post) pre
        (scanAgrees_spec _ _ _ _ hag1)).symm
    rw [hA, hB, hCeq]
    have e2 : subLineCol
        (substOn matchPathAt "<FILE>".toList pre (t1 ++ post) ++ (t1 ++ subPath post)) =
        subLineCol
        (substOn matchPathAt "<FILE>".toList pre (t1 ++ post) ++ (t2 ++ subPath post)) :=
      subst_equalize matchLineColAt ":<N>".toList _ t1 t2 (subPath post)
        (scanBound_spec _ _ _ hb2) (scanAgrees_spec _ _ _ _ hag2)
        (exactMatch_spec _ _ _ hx1) (exactMatch_spec _ _ _ hx2) hne1 hne2
    rw [e2]
  | lineNum =>
    obtain ⟨hne1, hne2, hb1, hag1, hin1, hin2, hb2, hag2, hin3, hin4, hb3, hag3, hx1, hx2⟩ := h
    have hA : subPath (pre ++ (t1 ++ post)) =
        substOn matchPathAt "<FILE>".toList pre (t1 ++ post) ++ (t1 ++ subPath post) :=
      subst_keep_token matchPathAt "<FILE>".toList pre t1 post
        (scanBound_spec _ _ _ hb1) (noMatchInside_spec _ _ _ hin1)
    have hB : subPath (pre ++ (t2 ++ post)) =
        substOn matchPathAt "<FILE>".toList pre (t2 ++ post) ++ (t2 ++ subPath post) :=
      subst_keep_token matchPathAt "<FILE>".toList pre t2 post
        (fun i hi n hn => scanBound_spec _ _ _ hb1 i hi n
          (by rw [scanAgrees_spec _ _ _ _ hag1 i hi]; exact hn))
        (noMatchInside_spec _ _ _ hin2)
    have hCeq : substOn matchPathAt "<FILE>".toList pre (t2 ++ post) =
        substOn matchPathAt "<FILE>".toList pre (t1 ++ post) :=
      (substOn_congr matchPathAt "<FILE>".toList (t1 ++ post) (t2 ++ post) pre
        (scanAgrees_spec _ _ _ _ hag1)).symm
    rw [hA, hB, hCeq]
    have hA2 : subLineCol
        (substOn matchPathAt "<FILE>".toList pre (t1 ++ post) ++ (t1 ++ subPath post)) =
        substOn matchLineColAt ":<N>".toList
          (substOn matchPathAt "<FILE>".toList pre (t1 ++ post)) (t1 ++ subPath post)
        ++ (t1 ++ subLineCol (subPath post)) :=
      subst_keep_token matchLineColAt ":<N>".toList _ t1 (subPath post)
        (scanBound_spec _ _ _ hb2) (noMatchInside_spec _ _ _ hin3)
    have hB2 : subLineCol
        (substOn matchPathAt "<FILE>".toList pre (t1 ++ post) ++ (t2 ++ subPath post)) =
        substOn matchLineColAt ":<N>".toList
          (substOn matchPathAt "<FILE>".toList pre (t1 ++ post)) (t2 ++ subPath post)
        ++ (t2 ++ subLineCol (subPath post)) :=
      subst_keep_token matchLineColAt ":<N>".toList _ t2 (subPath post)
        (fun i hi n hn => scanBound_spec _ _ _ hb2 i hi n
          (by rw [scanAgrees_spec _ _ _ _ hag2 i hi]; exact hn))
        (noMatchInside_spec _ _ _ hin4)
    have hCeq2 : substOn matchLineColAt ":<N>".toList
          (substOn matchPathAt "<FILE>".toList pre (t1 ++ post)) (t2 ++ subPath post) =
        substOn matchLineColAt ":<N>".toList
          (substOn matchPathAt "<FILE>".toList pre (t1 ++ post)) (t1 ++ subPath post) :=
      (substOn_congr matchLineColAt ":<N>".toList (t1 ++ subPath post) (t2 ++ subPath post) _
        (scanAgrees_spec _ _ _ _ hag2)).symm
    rw [hA2, hB2, hCeq2]
    exact subst_equalize matchLineAt "line <N>".toList _ t1 t2 (subLineCol (subPath post))
      (scanBound_spec _ _ _ hb3) (scanAgrees_spec _ _ _ _ hag3)
      (exactMatch_spec _ _ _ hx1) (exactMatch_spec _ _ _ hx2) hne1 hne2

end ErrorCache

namespace ErrorCache

/-- Claim C2 (counterexample): the texts "/a.cpp" and "/a.c" differ only in a
source-file path token (both full matches of the path pattern), yet their
dedup keys differ: ordered alternation matches the extension c before cpp, so
"/a.cpp" normalizes to a key with a trailing pp residue. -/
theorem claim_C2_counterexample :
    DiffersOnlyInToken "/a.cpp" "/a.c" ∧ error_key "/a.cpp" ≠ error_key "/a.c" :=
  ⟨⟨TokenKind.path, [], "/a.cpp".toList, "/a.c".toList, [], by decide, by decide,
    by decide, by decide⟩, by decide⟩

/-- Claim C2 (witness): concrete non-interfering substitutions of each kind,
with the key equality obtained from the amended theorem. -/
theorem claim_C2_witness :
    InsensitiveCond TokenKind.path "ValueError: open ".toList "/app/main.py".toList
      "/lib/util.js".toList " failed hard".toList ∧
    error_key (String.mk ("ValueError: open ".toList ++
        ("/app/main.py".toList ++ " failed hard".toList))) =
      error_key (String.mk ("ValueError: open ".toList ++
        ("/lib/util.js".toList ++ " failed hard".toList))) ∧
    InsensitiveCond TokenKind.linecol "boom at ".toList ":10:5".toList
      ":3:44".toList " in func".toList ∧
    error_key (String.mk ("boom at ".toList ++ (":10:5".toList ++ " in func".toList))) =
      error_key (String.mk ("boom at ".toList ++ (":3:44".toList ++ " in func".toList))) ∧
    InsensitiveCond TokenKind.lineNum "fail ".toList "line 3".toList
      "Line 400".toList "!".toList ∧
    error_key (String.mk ("fail ".toList ++ ("line 3".toList ++ "!".toList))) =
      error_key (String.mk ("fail ".toList ++ ("Line 400".toList ++ "!".toList))) :=
  ⟨by decide,
   claim_C2_amended TokenKind.path _ _ _ _ (by decide),
   by decide,
   claim_C2_amended TokenKind.linecol _ _ _ _ (by decide),
   by decide,
   claim_C2_amended TokenKind.lineNum _ _ _ _ (by decide)⟩

end ErrorCache

namespace ErrorCache

/-- Claim C3 (amended): two raw error texts whose dedup keys coincide (in
particular, texts differing only by a non-interfering file path or line
number substitution, claim C2 amended) cause at most one remote search across
two runs of the shared search-and-inject procedure, starting from a state
where the key is not tracked. -/
theorem claim_C3_amended (searchFn : String → Nat → List Json) (st : HookState)
    (t1 t2 tool1 tool2 : String)
    (hkey : error_key t1 = error_key t2)
    (h1 : st.lookup (error_key t1) = none) :
    (searchAndInject searchFn st t1 tool1).2.2 +
      (searchAndInject searchFn (searchAndInject searchFn st t1 tool1).2.1 t2 tool2).2.2
      ≤ 1 := by
  have hfirst : (searchAndInject searchFn st t1 tool1).2.1 =
      (error_key t1, TrackedInfo.mk t1 tool1) :: st ∧
      (searchAndInject searchFn st t1 tool1).2.2 = 1 := by
    simp only [searchAndInject, h1, Option.isSome_none]
    by_cases hs : (searchFn t1 3).isEmpty <;> simp [hs]
  have hsecond : (searchAndInject searchFn
      (searchAndInject searchFn st t1 tool1).2.1 t2 tool2).2.2 = 0 := by
    rw [hfirst.1]
    simp only [searchAndInject, ← hkey]
    simp [List.lookup]
  rw [hfirst.2, hsecond]

/-- Claim C3 (counterexample): the raw texts "/a.cpp" and "/a.c" differ only
by a source-file path token, neither key is tracked initially, yet running
the search-and-inject procedure on both executes the remote search twice,
because their dedup keys differ. -/
theorem claim_C3_counterexample :
    DiffersOnlyInToken "/a.cpp" "/a.c" ∧
    (searchAndInject (fun _ _ => []) [] "/a.cpp" "bash").2.2 +
      (searchAndInject (fun _ _ => [])
        (searchAndInject (fun _ _ => []) [] "/a.cpp" "bash").2.1 "/a.c" "bash").2.2 = 2 :=
  ⟨⟨TokenKind.path, [], "/a.cpp".toList, "/a.c".toList, [], by decide, by decide,
    by decide, by decide⟩, by decide⟩

/-- Claim C3 (witness): two texts differing in their path, with equal keys,
from the empty session state. -/
theorem claim_C3_witness :
    error_key "Error at /a.py" = error_key "Error at /b.js" ∧
    ([] : HookState).lookup (error_key "Error at /a.py") = none ∧
    (searchAndInject (fun _ _ => []) [] "Error at /a.py" "bash").2.2 +
      (searchAndInject (fun _ _ => [])
        (searchAndInject (fun _ _ => []) [] "Error at /a.py" "bash").2.1
        "Error at /b.js" "shell").2.2 ≤ 1 :=
  ⟨by decide, by decide,
   claim_C3_amended (fun _ _ => []) [] "Error at /a.py" "Error at /b.js" "bash" "shell"
     (by decide) (by decide)⟩

end ErrorCache

namespace ErrorCache

/-- Once the capture flag is set, the line scan only ever appends: whatever is
already accumulated is a prefix of the result. -/
theorem collect_true_extends :
    ∀ (r : List (List Char)) (acc : List (List Char)),
      ∃ extra, collectLines r true acc = acc.reverse ++ extra := by
  intro r
  induction r with
  | nil => intro acc; exact ⟨[], by simp [collectLines]⟩
  | cons l rest ih =>
    intro acc
    rw [collectLines]
    simp only [Bool.true_or, eq_self_iff_true, if_true]
    by_cases hlen : 10 ≤ (l :: acc).length
    · rw [if_pos hlen]
      exact ⟨[l], by simp⟩
    · rw [if_neg hlen]
      obtain ⟨e, he⟩ := ih (l :: acc)
      rw [he]
      exact ⟨l :: e, by simp⟩

/-- The first matching line is the first line the capture collects. -/
theorem collect_found_head :
    ∀ (lines : List (List Char)) (l₀ : List Char),
      lines.find? lineMatches = some l₀ →
      ∃ extra, collectLines lines false [] = l₀ :: extra := by
  intro lines
  induction lines with
  | nil => intro l₀ h; simp [List.find?] at h
  | cons l rest ih =>
    intro l₀ h
    rw [List.find?] at h
    cases hm : lineMatches l with
    | true =>
      rw [hm] at h
      simp only [Option.some.injEq] at h
      subst h
      rw [collectLines]
      simp only [hm, Bool.false_or, eq_self_iff_true, if_true]
      rw [if_neg (show ¬ 10 ≤ ([l] : List (List Char)).length by simp)]
      obtain ⟨e, he⟩ := collect_true_extends rest [l]
      rw [he]
      exact ⟨e, by simp⟩
    | false =>
      rw [hm] at h
      rw [collectLines]
      simpa [hm] using ih l₀ h

/-- Claim C4 (amended): for every input string one of whose lines matches a
configured error-indicator pattern, extract returns a non-absent signature
built by joining captured lines, and the first matching line is among them
(lines beyond the 10-line capture window are not retained). -/
theorem claim_C4_amended (output : String) (l₀ : List Char)
    (h : (extractLines output).find? lineMatches = some l₀) :
    ∃ ls, extract_error_text output = some (String.mk (joinNl ls)) ∧ l₀ ∈ ls := by
  obtain ⟨extra, hc⟩ := collect_found_head _ _ h
  refine ⟨l₀ :: extra, ?_, List.mem_cons_self _ _⟩
  unfold extract_error_text
  rw [hc]
  simp

/-- Claim C4 (counterexample): an input whose 11th line also matches an error
pattern; the capture stops after 10 lines, so the returned signature does not
contain that matching line. -/
theorem claim_C4_counterexample :
    lineMatches "Error: b".toList = true ∧
    "Error: b".toList ∈ extractLines "Error: a\nx0\nx1\nx2\nx3\nx4\nx5\nx6\nx7\nx8\nError: b" ∧
    extract_error_text "Error: a\nx0\nx1\nx2\nx3\nx4\nx5\nx6\nx7\nx8\nError: b" =
      some "Error: a\nx0\nx1\nx2\nx3\nx4\nx5\nx6\nx7\nx8" ∧
    "Error: b".toList ∉
      pySplitlines ("Error: a\nx0\nx1\nx2\nx3\nx4\nx5\nx6\nx7\nx8" : String).toList := by
  decide

/-- Claim C4 (witness): a single matching line is extracted and contained. -/
theorem claim_C4_witness :
    (extractLines "ValueError: boom").find? lineMatches = some "ValueError: boom".toList ∧
    ∃ ls, extract_error_text "ValueError: boom" = some (String.mk (joinNl ls)) ∧
      "ValueError: boom".toList ∈ ls :=
  ⟨by decide, claim_C4_amended "ValueError: boom" "ValueError: boom".toList (by decide)⟩

end ErrorCache

namespace ErrorCache

/-- Does the decoded search response carry a list of questions: either the
body is itself a list, or it is an object whose data field is a list. -/
def respHasQuestionList : Except Unit Json → Bool
  | .error _ => false
  | .ok j =>
    match j with
    | .arr _ => true
    | .obj _ =>
      match jget j "data" with
      | some (.arr _) => true
      | _ => false
    | _ => false

/-- Claim C5: the hook client search never raises; on transport or parse
failure, and whenever the decoded response does not contain a list of
questions, it returns the empty sequence; and whenever the search comes back
empty the search-and-inject procedure returns a continue action with no
context injection. -/
theorem claim_C5 (resp : Except Unit Json) (searchFn : String → Nat → List Json)
    (st : HookState) (text tool : String) :
    (respHasQuestionList resp = false → processSearchResp resp = []) ∧
    (searchFn text 3 = [] →
      (searchAndInject searchFn st text tool).1.action = "continue" ∧
      (searchAndInject searchFn st text tool).1.context_injection = none) := by
  constructor
  · intro h
    match resp with
    | .error _ => rfl
    | .ok (.null) => rfl
    | .ok (.bool b) => rfl
    | .ok (.num n) => rfl
    | .ok (.str s) => rfl
    | .ok (.arr l) => simp [respHasQuestionList] at h
    | .ok (.obj f) =>
      show (match jgetD (Json.obj f) "data" (.arr []) with
        | .arr l => l
        | _ => ([] : List Json)) = []
      unfold jgetD
      cases hd : jget (Json.obj f) "data" with
      | none => rfl
      | some v =>
        cases v with
        | arr l => simp [respHasQuestionList, hd] at h
        | null => rfl
        | bool b => rfl
        | num n => rfl
        | str s => rfl
        | obj g => rfl
  · intro h
    unfold searchAndInject
    by_cases hk : (st.lookup (error_key text)).isSome
    · simp [hk, contResult]
    · simp [hk, h, contResult]

/-- Claim C5 (witness): an unreachable endpoint (transport failure) yields the
empty sequence, and the hook then continues without injecting. -/
theorem claim_C5_witness :
    processSearchResp (.error ()) = [] ∧
    (searchAndInject (fun _ _ => []) [] "ValueError: x" "bash").1.action = "continue" ∧
    (searchAndInject (fun _ _ => []) [] "ValueError: x" "bash").1.context_injection = none :=
  ⟨(claim_C5 (.error ()) (fun _ _ => []) [] "ValueError: x" "bash").1 (by decide),
   (claim_C5 (.error ()) (fun _ _ => []) [] "ValueError: x" "bash").2 rfl⟩

end ErrorCache

namespace ErrorCache

/-- The question id ErrorCacheClient.submit extracts from the first response:
data.id when the body and its data field are dicts and the id is truthy. -/

def submitQid (respQ : Except Unit Json) : Option Json :=
  match respQ with
  | .error _ => none
  | .ok qData =>
    if !qData.isObj then none
    else
      let dataField := jgetD qData "data" (.obj [])
      if !dataField.isObj then none
      else
        match jget dataField "id" with
        | some idv => if jsonTruthy idv then some idv else none
        | none => none

/-- Characterization of clientSubmit through the extracted id. -/
theorem clientSubmit_eq (respQ respA : Except Unit Json) :
    clientSubmit respQ respA =
      match submitQid respQ with
      | none => (false, [SubmitCall.question])
      | some idv =>
        match respA with
        | .error _ => (false, [SubmitCall.question, SubmitCall.answer (pyStrJson idv)])
        | .ok _ => (true, [SubmitCall.question, SubmitCall.answer (pyStrJson idv)]) := by
  match respQ with
  | .error e => rfl
  | .ok Json.null => rfl
  | .ok (Json.bool b) => rfl
  | .ok (Json.num n) => rfl
  | .ok (Json.str s) => rfl
  | .ok (Json.arr l) => rfl
  | .ok (Json.obj f) =>
    unfold clientSubmit submitQid jgetD
    dsimp only
    cases hd : jget (Json.obj f) "data" with
    | none => rfl
    | some v =>
      cases v with
      | null => rfl
      | bool b => rfl
      | num n => rfl
      | str s => rfl
      | arr l => rfl
      | obj g =>
        simp only [Option.getD_some]
        cases hid : jget (Json.obj g) "id" with
        | none => rfl
        | some idv =>
          by_cases ht : jsonTruthy idv
          · cases respA <;> simp [ht, Json.isObj]
          · simp [ht, Json.isObj]

/-- Claim C6: the client submit issues the question POST before the answer
POST; when question creation yields no usable id the answer POST is never
issued and the result is false; and any transport failure in either step
makes the result false (the function is total: it never raises). -/
theorem claim_C6 (respQ respA : Except Unit Json) :
    ((clientSubmit respQ respA).2 = [SubmitCall.question] ∨
      ∃ qid, (clientSubmit respQ respA).2 = [SubmitCall.question, SubmitCall.answer qid]) ∧
    (submitQid respQ = none →
      (clientSubmit respQ respA).2 = [SubmitCall.question] ∧
      (clientSubmit respQ respA).1 = false) ∧
    (∀ e, respQ = .error e → (clientSubmit respQ respA).1 = false) ∧
    (∀ e, respA = .error e → (clientSubmit respQ respA).1 = false) := by
  rw [clientSubmit_eq respQ respA]
  cases hq : submitQid respQ with
  | none =>
    exact ⟨Or.inl rfl, fun _ => ⟨rfl, rfl⟩, fun e h => rfl, fun e h => rfl⟩
  | some idv =>
    match respA with
    | .error e1 =>
      refine ⟨Or.inr ⟨pyStrJson idv, rfl⟩, fun h => ?_, fun e h => rfl, fun e h => rfl⟩
      cases h
    | .ok a1 =>
      refine ⟨Or.inr ⟨pyStrJson idv, rfl⟩, fun h => ?_, fun e h => ?_, fun e h => ?_⟩
      · cases h
      · rw [h] at hq; simp [submitQid] at hq
      · cases h


/-- Claim C6 (witness): a falsy id aborts before the answer POST; transport
failures in either step return false. -/
theorem claim_C6_witness :
    submitQid (.ok (Json.obj [("data", Json.obj [("id", Json.num 0)])])) = none ∧
    (clientSubmit (.ok (Json.obj [("data", Json.obj [("id", Json.num 0)])])) (.ok .null)).2
      = [SubmitCall.question] ∧
    (clientSubmit (.ok (Json.obj [("data", Json.obj [("id", Json.num 0)])])) (.ok .null)).1
      = false ∧
    (clientSubmit (.error ()) (.ok .null)).1 = false ∧
    (clientSubmit (.ok (Json.obj [("data", Json.obj [("id", Json.str "q1")])]))
      (.error ())).1 = false :=
  ⟨by decide,
   ((claim_C6 (.ok (Json.obj [("data", Json.obj [("id", Json.num 0)])])) (.ok .null)).2.1
     (by decide)).1,
   ((claim_C6 (.ok (Json.obj [("data", Json.obj [("id", Json.num 0)])])) (.ok .null)).2.1
     (by decide)).2,
   (claim_C6 (.error ()) (.ok .null)).2.2.1 () rfl,
   (claim_C6 (.ok (Json.obj [("data", Json.obj [("id", Json.str "q1")])])) (.error ())).2.2.2
     () rfl⟩

end ErrorCache

namespace ErrorCache


/-- Claim C7: each operation branch validates its minimum-length and
enumeration constraints before any remote call; a violated constraint yields
a structured failure result (success = false) and an empty list of issued
requests.  The dispatcher is a total function, so no invocation raises. -/
theorem claim_C7 (inp : ToolInput) (resp1 resp2 respQ respA respV : Json) :
    (inp.operation = some "search_errors" →
      (inp.error_message.getD "" = "" ∨ (inp.error_message.getD "").length < 3) →
      (toolExecute inp resp1 resp2 respQ respA respV).1.success = false ∧
      (toolExecute inp resp1 resp2 respQ respA respV).2 = []) ∧
    (inp.operation = some "submit_solution" →
      (inp.root_cause.getD "" = "" ∨ (inp.root_cause.getD "").length < 20 ∨
        inp.fix_approach.getD "" = "" ∨ (inp.fix_approach.getD "").length < 20) →
      (toolExecute inp resp1 resp2 respQ respA respV).1.success = false ∧
      (toolExecute inp resp1 resp2 respQ respA respV).2 = []) ∧
    (inp.operation = some "verify_solution" →
      ["pass", "fail", "partial"].contains (inp.result.getD "") = false →
      (toolExecute inp resp1 resp2 respQ respA respV).1.success = false ∧
      (toolExecute inp resp1 resp2 respQ respA respV).2 = []) := by
  refine ⟨fun hop hviol => ?_, fun hop hviol => ?_, fun hop hviol => ?_⟩
  · have hred : toolExecute inp resp1 resp2 respQ respA respV =
        ((toolSearchModel inp resp1 resp2).toolResult, (toolSearchModel inp resp1 resp2).calls) := by
      simp [toolExecute, hop]
    rw [hred]
    simp only [toolSearchModel]
    rw [if_pos (show (decide (inp.error_message.getD "" = "") ||
        decide ((inp.error_message.getD "").length < 3)) = true from by
      rcases hviol with h | h <;> simp [h])]
    exact ⟨rfl, rfl⟩
  · have hred : toolExecute inp resp1 resp2 respQ respA respV =
        toolSubmitModel inp respQ respA := by
      simp [toolExecute, hop]
    rw [hred]
    simp only [toolSubmitModel]
    by_cases hrc : (decide (inp.root_cause.getD "" = "") ||
        decide ((inp.root_cause.getD "").length < 20)) = true
    · rw [if_pos hrc]
      exact ⟨rfl, rfl⟩
    · have hfx : (decide (inp.fix_approach.getD "" = "") ||
          decide ((inp.fix_approach.getD "").length < 20)) = true := by
        rcases hviol with h | h | h | h
        · exact absurd (by simp [h]) hrc
        · exact absurd (by simp [h]) hrc
        · simp [h]
        · simp [h]
      rw [if_neg hrc, if_pos hfx]
      exact ⟨rfl, rfl⟩
  · have hred : toolExecute inp resp1 resp2 respQ respA respV =
        toolVerifyModel inp respV := by
      simp [toolExecute, hop]
    rw [hred]
    simp only [toolVerifyModel]
    by_cases ha : inp.answer_id.getD "" = ""
    · rw [if_pos ha]
      exact ⟨rfl, rfl⟩
    · have hc : (! ["pass", "fail", "partial"].contains (inp.result.getD "")) = true := by
        simp only [Bool.not_eq_true']
        exact hviol
      rw [if_neg ha, if_pos hc]
      exact ⟨rfl, rfl⟩


/-- Scenario inputs for the validation witness. -/
def c7SearchInput : ToolInput :=
  { operation := some "search_errors", error_message := some "ab" }

def c7SubmitInput : ToolInput :=
  { operation := some "submit_solution", root_cause := some "0123456789",
    fix_approach := some "a sufficiently long fix text" }

def c7VerifyInput : ToolInput :=
  { operation := some "verify_solution", answer_id := some "a1", result := some "maybe" }

/-- Claim C7 (witness): the three scenario inputs: a 2-character
error_message, a 10-character root_cause, and result "maybe"; each fails with
no network call. -/
theorem claim_C7_witness :
    ((toolExecute c7SearchInput .null .null .null .null .null).1.success = false ∧
      (toolExecute c7SearchInput .null .null .null .null .null).2 = []) ∧
    ((toolExecute c7SubmitInput .null .null .null .null .null).1.success = false ∧
      (toolExecute c7SubmitInput .null .null .null .null .null).2 = []) ∧
    ((toolExecute c7VerifyInput .null .null .null .null .null).1.success = false ∧
      (toolExecute c7VerifyInput .null .null .null .null .null).2 = []) :=
  ⟨(claim_C7 c7SearchInput .null .null .null .null .null).1 rfl (Or.inr (by decide)),
   (claim_C7 c7SubmitInput .null .null .null .null .null).2.1 rfl
     (Or.inr (Or.inl (by decide))),
   (claim_C7 c7VerifyInput .null .null .null .null .null).2.2 rfl (by decide)⟩

end ErrorCache

namespace ErrorCache

/-- The resolution discipline claim C8 asserts: explicit value first, then
the environment variable, then the hardcoded default, with an unresolved
placeholder treated as absent. -/
def ResolvesWithPrecedence
    (resolve : Option String → Option String → String → String) : Prop :=
  (∀ v env d, v ≠ "" → hasUnresolvedVar v.toList = false → resolve (some v) env d = v) ∧
  (∀ e d, resolve none (some e) d = e) ∧
  (∀ d, resolve none none d = d) ∧
  (∀ v env d, hasUnresolvedVar v.toList = true → resolve (some v) (some env) d = env) ∧
  (∀ v d, hasUnresolvedVar v.toList = true → resolve (some v) none d = d)

/-- Claim C8 (amended): the hooks module resolves api_url and api_key with
the full precedence (explicit value, then environment variable, then
default, an unresolved placeholder or empty value falling through), while
the tool module mount reads the explicit config value with only the
hardcoded default as fallback: it consults no environment variable and does
not detect placeholders. -/
theorem claim_C8_amended :
    ResolvesWithPrecedence resolve_env ∧
    (∀ (v d : String), toolConfigGet (some v) d = v) ∧
    (∀ d, toolConfigGet none d = d) := by
  refine ⟨⟨?_, ?_, ?_, ?_, ?_⟩, fun v d => rfl, fun d => rfl⟩
  · intro v env d h1 h2
    rw [String.toList] at h2
    simp [resolve_env, String.toList, h1, h2]
  · intro e d; rfl
  · intro d; rfl
  · intro v env d h
    rw [String.toList] at h
    simp [resolve_env, String.toList, h]
  · intro v d h
    rw [String.toList] at h
    simp [resolve_env, String.toList, h]

/-- Claim C8 (counterexample): the tool module passes an unresolved
placeholder value through literally and never falls back to the environment
variable, so it does not satisfy the claimed precedence. -/
theorem claim_C8_counterexample :
    hasUnresolvedVar "$\x7bERRORCACHE_API_URL:-x\x7d".toList = true ∧
    toolConfigGet (some "$\x7bERRORCACHE_API_URL:-x\x7d") "https://api.errorcache.com/api/v1"
      = "$\x7bERRORCACHE_API_URL:-x\x7d" ∧
    ¬ ResolvesWithPrecedence (fun v _ d => toolConfigGet v d) := by
  refine ⟨by decide, rfl, fun h => ?_⟩
  have h2 := h.2.1 "https://env.example" "someDefault"
  simp [toolConfigGet] at h2

/-- Claim C8 (witness): each precedence clause at concrete values, plus the
tool module behaviour. -/
theorem claim_C8_witness :
    resolve_env (some "https://cfg") (some "https://env") "d" = "https://cfg" ∧
    resolve_env none (some "https://env") "d" = "https://env" ∧
    resolve_env none none "d" = "d" ∧
    resolve_env (some "$\x7bX:-y\x7d") (some "https://env") "d" = "https://env" ∧
    resolve_env (some "$\x7bX:-y\x7d") none "d" = "d" ∧
    toolConfigGet (some "cfg") "d" = "cfg" ∧
    toolConfigGet none "d" = "d" :=
  ⟨claim_C8_amended.1.1 "https://cfg" (some "https://env") "d" (by decide) (by decide),
   claim_C8_amended.1.2.1 "https://env" "d",
   claim_C8_amended.1.2.2.1 "d",
   claim_C8_amended.1.2.2.2.1 "$\x7bX:-y\x7d" "https://env" "d" (by decide),
   claim_C8_amended.1.2.2.2.2 "$\x7bX:-y\x7d" "d" (by decide),
   claim_C8_amended.2.1 "cfg" "d",
   claim_C8_amended.2.2 "d"⟩

end ErrorCache

namespace ErrorCache

theorem pySliceTo_length_le {α : Type} (l : List α) (m : Int) (h : 0 ≤ m) :
    ((pySliceTo l m).length : Int) ≤ m := by
  simp only [pySliceTo, if_pos h, List.length_take]
  omega

/-- Claim C9 (amended): whenever search_errors reports a count, that count
equals the number of formatted results, and it never exceeds the requested
limit provided the requested limit is nonnegative, even when the phase-2
merge appended more entries than the remaining capacity requested from the
server (the output slices the merged list to the limit). -/
theorem claim_C9_amended (inp : ToolInput) (resp1 resp2 : Json) (n : Nat)
    (hcount : (toolSearchModel inp resp1 resp2).count = some n) :
    n = (toolSearchModel inp resp1 resp2).formatted.length ∧
    (0 ≤ inp.lim.getD 5 → (n : Int) ≤ inp.lim.getD 5) := by
  simp only [toolSearchModel] at hcount ⊢
  by_cases h1 : (decide (inp.error_message.getD "" = "") ||
      decide ((inp.error_message.getD "").length < 3)) = true
  · rw [if_pos h1] at hcount
    simp at hcount
  · rw [if_neg h1] at hcount ⊢
    by_cases h2 : (mergedQs (inp.lim.getD 5) resp1 resp2).isEmpty = true
    · rw [if_pos h2] at hcount
      simp at hcount
    · rw [if_neg h2] at hcount ⊢
      simp only [Option.some.injEq] at hcount
      subst hcount
      refine ⟨by simp, fun hnn => ?_⟩
      simp only [List.length_map]
      exact pySliceTo_length_le _ _ hnn

def c9Input : ToolInput :=
  { operation := some "search_errors", error_message := some "boom", lim := some (-1) }

def c9Resp1 : Json :=
  .obj [("data", .arr [.obj [("id", .str "a")], .obj [("id", .str "b")],
    .obj [("id", .str "c")]])]

/-- Claim C9 (counterexample): with a requested limit of -1 (schema type
integer) and a phase-1 response of three questions, the Python slice
questions[:-1] keeps two entries: the invocation succeeds, reports count 2,
and 2 exceeds the requested limit -1. -/
theorem claim_C9_counterexample :
    (toolSearchModel c9Input c9Resp1 .null).toolResult.success = true ∧
    (toolSearchModel c9Input c9Resp1 .null).count = some 2 ∧
    ¬ ((2 : Int) ≤ c9Input.lim.getD 5) := by
  refine ⟨by decide, by decide, by decide⟩

def c9wInput : ToolInput :=
  { operation := some "search_errors", error_message := some "boom", lim := some 5 }

def c9wResp1 : Json := .obj [("data", .arr [.obj [("id", .str "a")]])]

/-- Claim C9 (witness): a reported count equals the formatted length and
respects a nonnegative limit. -/
theorem claim_C9_witness :
    (toolSearchModel c9wInput c9wResp1 .null).count = some 1 ∧
    (1 = (toolSearchModel c9wInput c9wResp1 .null).formatted.length ∧
      (0 ≤ c9wInput.lim.getD 5 → ((1 : Nat) : Int) ≤ c9wInput.lim.getD 5)) :=
  ⟨by decide, claim_C9_amended c9wInput c9wResp1 .null 1 (by decide)⟩

end ErrorCache

namespace ErrorCache

/-- Every entry the merge appends has an id different from every phase-1 id
(the filter checks membership in the phase-1 seen set). -/

theorem appendedQs_disjoint (qs : List Json) (p2 : Option (Int × Option (List Json))) :
    ∀ q ∈ appendedQs qs p2, ∀ p ∈ qs, jget q "id" ≠ jget p "id" := by
  intro q hq p hp heq
  match p2 with
  | none => simp [appendedQs] at hq
  | some (r, none) => simp [appendedQs] at hq
  | some (r, some l2) =>
    simp only [appendedQs] at hq
    have h2 := (List.mem_filter.mp hq).2
    rw [Bool.not_eq_true'] at h2
    simp at h2
    exact h2 p hp heq.symm

/-- When the phase-1 ids and the phase-2 response ids are each duplicate
free, the merged ids are duplicate free. -/
theorem merged_nodup (qs : List Json) (p2 : Option (Int × Option (List Json)))
    (h1 : (qs.map (fun q => jget q "id")).Nodup)
    (h2 : ∀ r l2, p2 = some (r, some l2) → (l2.map (fun q => jget q "id")).Nodup) :
    ((qs ++ appendedQs qs p2).map (fun q => jget q "id")).Nodup := by
  rw [List.map_append, List.nodup_append]
  refine ⟨h1, ?_, ?_⟩
  · match p2 with
    | none => simp [appendedQs]
    | some (r, none) => simp [appendedQs]
    | some (r, some l2) =>
      have hsub : List.Sublist
          ((appendedQs qs (some (r, some l2))).map (fun q => jget q "id"))
          (l2.map (fun q => jget q "id")) := by
        simp only [appendedQs]
        exact (List.filter_sublist _).map _
      exact (h2 r l2 rfl).sublist hsub
  · intro a ha hb
    obtain ⟨p, hp, hpe⟩ := List.mem_map.mp ha
    obtain ⟨q, hq, hqe⟩ := List.mem_map.mp hb
    exact appendedQs_disjoint qs p2 q hq p hp (hqe.trans hpe.symm)



/-- Claim C1 (amended): for a valid search_errors invocation whose phase-1
search yields k questions with k < limit, phase 2 is invoked with capacity
limit - k, the merged list is the phase-1 entries followed by the appended
phase-2 entries, every appended phase-2 entry has an id distinct from every
phase-1 id, and when each phase response is itself free of duplicate ids the
merged list contains no two entries with the same id.  (The seen set is not
updated during the merge loop, so duplicates inside one phase-2 response
survive; hence the duplicate-freedom is conditional.) -/
theorem claim_C1_amended (inp : ToolInput) (resp1 resp2 : Json)
    (hvalid : ¬ (inp.error_message.getD "" = "" ∨ (inp.error_message.getD "").length < 3))
    (hlt : ((phase1Qs resp1).length : Int) < inp.lim.getD 5) :
    (toolSearchModel inp resp1 resp2).phase1Questions = phase1Qs resp1 ∧
    (toolSearchModel inp resp1 resp2).phase2Limit =
      some (inp.lim.getD 5 - ((phase1Qs resp1).length : Int)) ∧
    (toolSearchModel inp resp1 resp2).phase2Questions = ftsQs resp2 ∧
    (toolSearchModel inp resp1 resp2).merged =
      (toolSearchModel inp resp1 resp2).phase1Questions ++
        (toolSearchModel inp resp1 resp2).appended ∧
    (∀ q ∈ (toolSearchModel inp resp1 resp2).appended,
      ∀ p ∈ (toolSearchModel inp resp1 resp2).phase1Questions,
        jget q "id" ≠ jget p "id") ∧
    (((phase1Qs resp1).map (fun q => jget q "id")).Nodup →
      (∀ l2, ftsQs resp2 = some l2 → (l2.map (fun q => jget q "id")).Nodup) →
      ((toolSearchModel inp resp1 resp2).merged.map (fun q => jget q "id")).Nodup) := by
  have hb : ¬((decide (inp.error_message.getD "" = "") ||
      decide ((inp.error_message.getD "").length < 3)) = true) := by
    simpa using hvalid
  have hp2 : phase2Opt (phase1Qs resp1) (inp.lim.getD 5) resp2 =
      some (inp.lim.getD 5 - ((phase1Qs resp1).length : Int), ftsQs resp2) := by
    simp [phase2Opt, hlt]
  have hfields : (toolSearchModel inp resp1 resp2).phase1Questions = phase1Qs resp1 ∧
      (toolSearchModel inp resp1 resp2).phase2Limit =
        (phase2Opt (phase1Qs resp1) (inp.lim.getD 5) resp2).map Prod.fst ∧
      (toolSearchModel inp resp1 resp2).phase2Questions =
        (phase2Opt (phase1Qs resp1) (inp.lim.getD 5) resp2).bind Prod.snd ∧
      (toolSearchModel inp resp1 resp2).appended =
        appendedQs (phase1Qs resp1) (phase2Opt (phase1Qs resp1) (inp.lim.getD 5) resp2) ∧
      (toolSearchModel inp resp1 resp2).merged = mergedQs (inp.lim.getD 5) resp1 resp2 := by
    simp only [toolSearchModel]
    rw [if_neg hb]
    by_cases hm : (mergedQs (inp.lim.getD 5) resp1 resp2).isEmpty = true
    · rw [if_pos hm]; exact ⟨rfl, rfl, rfl, rfl, rfl⟩
    · rw [if_neg hm]; exact ⟨rfl, rfl, rfl, rfl, rfl⟩
  obtain ⟨e1, e2, e3, e4, e5⟩ := hfields
  refine ⟨e1, ?_, ?_, ?_, ?_, ?_⟩
  · rw [e2, hp2]; rfl
  · rw [e3, hp2]; rfl
  · rw [e5, e1, e4]; rfl
  · rw [e4, e1]; exact appendedQs_disjoint _ _
  · intro hn1 hn2
    rw [e5]
    unfold mergedQs
    apply merged_nodup _ _ hn1
    intro r l2 heq
    rw [hp2] at heq
    simp only [Option.some.injEq, Prod.mk.injEq] at heq
    exact hn2 l2 heq.2


def c1Input : ToolInput :=
  { operation := some "search_errors", error_message := some "boom", lim := some 5 }

def c1Resp1 : Json := .obj [("data", .arr [.obj [("id", .str "a")]])]

def c1Resp2 : Json :=
  .obj [("data", .obj [("questions",
    .arr [.obj [("id", .str "b")], .obj [("id", .str "b")]])])]

/-- Claim C1 (counterexample): phase 1 yields one question (k = 1 < 5) and
phase 2 fires with capacity 4, but the phase-2 response repeats an id: the
seen set is computed before the loop and never updated, so both copies are
appended and the merged list carries two entries with id b. -/
theorem claim_C1_counterexample :
    ((toolSearchModel c1Input c1Resp1 c1Resp2).phase1Questions.length : Int) <
      c1Input.lim.getD 5 ∧
    (toolSearchModel c1Input c1Resp1 c1Resp2).phase2Limit = some 4 ∧
    ¬ ((toolSearchModel c1Input c1Resp1 c1Resp2).merged.map
        (fun q => jget q "id")).Nodup := by
  refine ⟨by decide, by decide, by decide⟩

def c1wResp2 : Json :=
  .obj [("data", .obj [("questions", .arr [.obj [("id", .str "b")]])])]

/-- Claim C1 (witness): with duplicate-free responses the merged list is
duplicate free, and phase 2 receives the remaining capacity. -/
theorem claim_C1_witness :
    (toolSearchModel c1Input c1Resp1 c1wResp2).phase2Limit = some 4 ∧
    ((toolSearchModel c1Input c1Resp1 c1wResp2).merged.map
      (fun q => jget q "id")).Nodup :=
  ⟨((claim_C1_amended c1Input c1Resp1 c1wResp2 (by decide) (by decide)).2.1).trans
     (by decide),
   (claim_C1_amended c1Input c1Resp1 c1wResp2 (by decide) (by decide)).2.2.2.2.2
     (by decide)
     (by
       intro l2 hl2
       have he : ftsQs c1wResp2 = some [Json.obj [("id", Json.str "b")]] := by decide
       rw [he] at hl2
       have hl3 := Option.some.inj hl2
       subst hl3
       decide)⟩

theorem lookup_mem_keys :
    ∀ (l : HookState) (k : String) (v : TrackedInfo),
      l.lookup k = some v → k ∈ l.map Prod.fst := by
  intro l
  induction l with
  | nil => intro k v h; simp [List.lookup] at h
  | cons kv rest ih =>
    intro k v h
    obtain ⟨k', v'⟩ := kv
    by_cases hk : k = k'
    · subst hk; simp
    · have hbeq : (k == k') = false := beq_false_of_ne hk
      simp only [List.lookup, hbeq] at h
      simp only [List.map_cons, List.mem_cons]
      exact Or.inr (ih k v h)

theorem lookup_filter_keep (tool : String) :
    ∀ (st : HookState) (k : String) (v : TrackedInfo),
      st.lookup k = some v → v.tool_name ≠ tool →
      (st.filter (fun kv => kv.2.tool_name ≠ tool)).lookup k = some v := by
  intro st
  induction st with
  | nil => intro k v h _; simp [List.lookup] at h
  | cons kv rest ih =>
    intro k v h hne
    obtain ⟨k', v'⟩ := kv
    by_cases hk : k = k'
    · subst hk
      simp only [List.lookup, beq_self_eq_true] at h
      have hv : v' = v := by simpa using h
      subst hv
      rw [List.filter_cons]
      simp only [hne, decide_not, ne_eq]
      rw [if_pos (by simp [hne])]
      simp [List.lookup]
    · have hbeq : (k == k') = false := beq_false_of_ne hk
      simp only [List.lookup, hbeq] at h
      rw [List.filter_cons]
      by_cases hcond : v'.tool_name = tool
      · rw [if_neg (by simpa using hcond)]
        exact ih k v h hne
      · rw [if_pos (by simpa using hcond)]
        simp only [List.lookup, hbeq]
        exact ih k v h hne

theorem lookup_filter_drop (tool : String) :
    ∀ (st : HookState) (k : String) (v : TrackedInfo),
      (st.map Prod.fst).Nodup →
      st.lookup k = some v → v.tool_name = tool →
      (st.filter (fun kv => kv.2.tool_name ≠ tool)).lookup k = none := by
  intro st
  induction st with
  | nil => intro k v _ h _; simp [List.lookup] at h
  | cons kv rest ih =>
    intro k v hnd h heq
    obtain ⟨k', v'⟩ := kv
    rw [List.map_cons, List.nodup_cons] at hnd
    by_cases hk : k = k'
    · subst hk
      simp only [List.lookup, beq_self_eq_true] at h
      have hv : v' = v := by simpa using h
      subst hv
      rw [List.filter_cons]
      rw [if_neg (by simpa using heq)]
      cases hrl : (rest.filter (fun kv => kv.2.tool_name ≠ tool)).lookup k with
      | none => rfl
      | some w =>
        have hmem := lookup_mem_keys _ _ _ hrl
        obtain ⟨kw, hkw, hkweq⟩ := List.mem_map.mp hmem
        have hmem2 := List.mem_of_mem_filter hkw
        exact absurd (List.mem_map.mpr ⟨kw, hmem2, hkweq⟩) hnd.1
    · have hbeq : (k == k') = false := beq_false_of_ne hk
      simp only [List.lookup, hbeq] at h
      rw [List.filter_cons]
      by_cases hcond : v'.tool_name = tool
      · rw [if_neg (by simpa using hcond)]
        exact ih k v hnd.2 h heq
      · rw [if_pos (by simpa using hcond)]
        simp only [List.lookup, hbeq]
        exact ih k v hnd.2 h heq

theorem searchAndInject_state (searchFn : String → Nat → List Json)
    (st : HookState) (etext tool : String) :
    (searchAndInject searchFn st etext tool).2.1 = st ∨
    (st.lookup (error_key etext) = none ∧
      (searchAndInject searchFn st etext tool).2.1 =
        (error_key etext, TrackedInfo.mk etext tool) :: st) := by
  unfold searchAndInject
  by_cases hk : (st.lookup (error_key etext)).isSome
  · left; simp [hk]
  · right
    refine ⟨Option.not_isSome_iff_eq_none.mp hk, ?_⟩
    by_cases hs : (searchFn etext 3).isEmpty <;> simp [hk, hs]

theorem handleToolPost_state (auto_search : Bool)
    (searchFn : String → Nat → List Json) (st : HookState)
    (tool_name : String) (result : Json)
    (hobj : result.isObj = false) :
    (handleToolPost auto_search true searchFn st tool_name result).2.1 =
        st.filter (fun kv => kv.2.tool_name ≠ tool_name) ∨
      ∃ etext, extract_error_text (getOutputText result) = some etext ∧
        (handleToolPost auto_search true searchFn st tool_name result).2.1 =
          (searchAndInject searchFn (st.filter (fun kv => kv.2.tool_name ≠ tool_name))
            etext tool_name).2.1 := by
  have hsucc : postSuccess result = true := by
    cases result with
    | obj f => simp [Json.isObj] at hobj
    | null => rfl
    | bool b => rfl
    | num n => rfl
    | str s => rfl
    | arr l => rfl
  unfold handleToolPost
  simp only [hsucc, eq_self_iff_true, if_true]
  have hstep : (if true && !st.isEmpty then
      st.filter (fun kv => kv.2.tool_name ≠ tool_name) else st) =
      st.filter (fun kv => kv.2.tool_name ≠ tool_name) := by
    cases st with
    | nil => simp
    | cons kv rest => simp
  rw [hstep]
  cases auto_search with
  | false => left; rfl
  | true =>
    simp only [Bool.not_true, Bool.false_eq_true, if_false]
    by_cases h2 : (["bash", "Bash", "shell", "run_command"].contains tool_name) = true
    · simp only [h2, Bool.not_true, Bool.false_eq_true, if_false]
      by_cases h3 : ((decide (getOutputText result = "") ||
          decide ((getOutputText result).length < 20)) = true)
      · left
        rw [if_pos h3]
      · rw [if_neg h3]
        cases hx : extract_error_text (getOutputText result) with
        | none => left; rfl
        | some etext => right; exact ⟨etext, rfl, rfl⟩
    · have h2f : (["bash", "Bash", "shell", "run_command"].contains tool_name) = false := by
        cases hc : (["bash", "Bash", "shell", "run_command"].contains tool_name)
        · rfl
        · exact absurd hc h2
      have hcond : ¬tool_name = "bash" ∧ ¬tool_name = "Bash" ∧
          ¬tool_name = "shell" ∧ ¬tool_name = "run_command" := by
        simpa using h2f
      left
      simp [h2f]
      rw [if_pos hcond]

def c10wFn : String → Nat → List Json := fun _ _ => []

/-- Claim C10 (counterexample): with auto-submit disabled the handler leaves a
tracked error recorded for the just-completed tool in place even though the
reported result is a plain string and not a mapping, so the unconditional
removal the claim states does not happen. -/
theorem claim_C10_counterexample :
    (Json.str "boom").isObj = false ∧
    (handleToolPost false false c10wFn [("k", TrackedInfo.mk "e" "bash")] "bash"
        (Json.str "boom")).2.1.lookup "k" = some (TrackedInfo.mk "e" "bash") := by
  refine ⟨by decide, by decide⟩

/-- Claim C10 (amended): when auto-submit is enabled and the reported result
is not a mapping, the completion is treated as successful: every tracked
error recorded for a different tool keeps its entry unchanged, and every
tracked error recorded for the just-completed tool is removed, except that
the handler may afterwards re-track one error extracted from the output,
whose key may coincide with a removed key. -/
theorem claim_C10_amended (auto_search : Bool)
    (searchFn : String → Nat → List Json) (st : HookState)
    (tool_name : String) (result : Json)
    (hobj : result.isObj = false)
    (hnodup : (st.map Prod.fst).Nodup) :
    (∀ k v, st.lookup k = some v → v.tool_name ≠ tool_name →
      (handleToolPost auto_search true searchFn st tool_name result).2.1.lookup k = some v) ∧
    (∀ k v, st.lookup k = some v → v.tool_name = tool_name →
      (handleToolPost auto_search true searchFn st tool_name result).2.1.lookup k = none ∨
      ∃ etext, extract_error_text (getOutputText result) = some etext ∧
        k = error_key etext ∧
        (handleToolPost auto_search true searchFn st tool_name result).2.1.lookup k =
          some (TrackedInfo.mk etext tool_name)) := by
  have hfinal := handleToolPost_state auto_search searchFn st tool_name result hobj
  constructor
  · intro k v hkv hne
    have hkeep := lookup_filter_keep tool_name st k v hkv hne
    rcases hfinal with hf | ⟨etext, hex, hf⟩
    · rw [hf]; exact hkeep
    · rw [hf]
      rcases searchAndInject_state searchFn
          (st.filter (fun kv => kv.2.tool_name ≠ tool_name)) etext tool_name with
        hs | ⟨hnone, hs⟩
      · rw [hs]; exact hkeep
      · rw [hs]
        have hkne : (k == error_key etext) = false := by
          apply beq_false_of_ne
          intro he
          rw [he, hnone] at hkeep
          cases hkeep
        simp only [List.lookup, hkne]
        exact hkeep
  · intro k v hkv heq
    have hdrop := lookup_filter_drop tool_name st k v hnodup hkv heq
    rcases hfinal with hf | ⟨etext, hex, hf⟩
    · left; rw [hf]; exact hdrop
    · rcases searchAndInject_state searchFn
          (st.filter (fun kv => kv.2.tool_name ≠ tool_name)) etext tool_name with
        hs | ⟨hnone, hs⟩
      · left; rw [hf, hs]; exact hdrop
      · by_cases hke : k = error_key etext
        · right
          refine ⟨etext, hex, hke, ?_⟩
          rw [hf, hs, hke]
          simp [List.lookup]
        · left
          rw [hf, hs]
          simp only [List.lookup, beq_false_of_ne hke]
          exact hdrop

def c10wSt : HookState :=
  [("k1", TrackedInfo.mk "e1" "bash"), ("k2", TrackedInfo.mk "e2" "edit")]

/-- Claim C10 (witness): a concrete two-entry tracked state with distinct
keys, a string result, auto-submit enabled: the amended guarantee applies. -/
theorem claim_C10_witness :
    (Json.str "ok").isObj = false ∧ (c10wSt.map Prod.fst).Nodup ∧
    ((∀ k v, c10wSt.lookup k = some v → v.tool_name ≠ "bash" →
        (handleToolPost false true c10wFn c10wSt "bash" (Json.str "ok")).2.1.lookup k =
          some v) ∧
     (∀ k v, c10wSt.lookup k = some v → v.tool_name = "bash" →
        (handleToolPost false true c10wFn c10wSt "bash" (Json.str "ok")).2.1.lookup k =
          none ∨
        ∃ etext, extract_error_text (getOutputText (Json.str "ok")) = some etext ∧
          k = error_key etext ∧
          (handleToolPost false true c10wFn c10wSt "bash" (Json.str "ok")).2.1.lookup k =
            some (TrackedInfo.mk etext "bash"))) :=
  ⟨by decide, by decide,
    claim_C10_amended false c10wFn c10wSt "bash" (Json.str "ok") (by decide) (by decide)⟩

end ErrorCache
